import Mathlib

/-!
# Verification of the Jobcard PDF composition and pagination engine

A shallow embedding of the document composition / pagination engine of the
Jobcard application (`jobcards/views.py`, `jobcards/models.py`), together
with theorems settling the specification claims about it.

Conventions of the embedding:
* Geometry (points, page coordinates, element positions) is modelled with `ℚ`
  (the source uses Python floats; none of the verified properties depends on
  float rounding).
* Database tables (`PDFTemplateElement`) are modelled as lists of records;
  the ORM query `objects.all()` is the list itself, `objects.exists()` is
  non-emptiness, and the dict comprehension `{e.element_name: e for e in ...}`
  is a last-wins lookup.
* Image assets (`ImageField`) are modelled by an `Image` record carrying the
  stored path, pixel dimensions and a flag `ok` meaning that the whole
  open/decode/draw path (`ImageReader` + `drawImage`) succeeds; a decode
  failure is `ok = false`.
* A Python exception that the source does not catch is modelled by returning
  `none` from the function in which it is raised.
* Text wrapping (`reportlab.lib.utils.simpleSplit`) and table row heights
  (computed by `Table.wrapOn` from font metrics) are external to the source;
  they are passed in as parameters `wrapFn` and `rowH`.
-/

namespace Jobcards

/-- Workflow status of a jobcard (`Jobcard.Status`, `models.py`). -/
inductive Status where
  | DRAFT
  | SUBMITTED
  | APPROVED
  | INVOICED
  deriving DecidableEq, Repr

/-- `get_status_display()` for a status: the human-readable choice label. -/
def statusDisplay : Status → String
  | .DRAFT => "Draft"
  | .SUBMITTED => "Submitted"
  | .APPROVED => "Approved"
  | .INVOICED => "Invoiced"

/-- An image asset (an `ImageField` value).  `path` is the stored file path,
`imgW`/`imgH` the pixel dimensions reported by `ImageReader.getSize()`, and
`ok` records whether opening/decoding/drawing the file succeeds; `ok = false`
models a missing or corrupt file (any access raises, which callers catch). -/
structure Image where
  path : String
  imgW : ℚ
  imgH : ℚ
  ok : Bool
  deriving DecidableEq, Repr

/-- A client company (`Company`, `models.py`); only the fields the renderer
reads are modelled. -/
structure Company where
  name : String
  email : String
  deriving DecidableEq, Repr

/-- A user account (`User`, `models.py`); only the fields the renderer reads. -/
structure User where
  username : String
  first_name : String
  last_name : String
  deriving DecidableEq, Repr

/-- Django's `User.get_full_name()`: first and last name joined by a space,
with surrounding whitespace stripped. -/
def getFullName (u : User) : String :=
  (u.first_name ++ " " ++ u.last_name).trim

/-- A line item of a jobcard (`JobcardItem`, `models.py`). -/
structure JobcardItem where
  description : String
  parts_used : String
  qty : Int
  person_helped : String
  deriving DecidableEq, Repr

/-- A jobcard record (`Jobcard`, `models.py`).  `company` and `technician`
are nullable foreign keys.  The renderer only ever uses the *formatted*
timestamps (`strftime('%Y-%m-%d %H:%M')`) and creation date
(`strftime('%Y-%m-%d')`), so those are modelled as the formatted strings. -/
structure Jobcard where
  jobcard_number : String
  company : Option Company
  technician : Option User
  status : Status
  time_start : Option String
  time_stop : Option String
  tech_signature : Option Image
  client_signature : Option Image
  manager_signature : Option Image
  tech_name : String
  client_name : String
  manager_name : String
  tech_notes : String
  manager_notes : String
  admin_notes : String
  created_at : String
  items : List JobcardItem
  deriving DecidableEq, Repr

/-- Branding settings (`GlobalSettings`, `models.py`): company display data,
an optional logo and an optional watermark asset. -/
structure GlobalSettings where
  company_name : String
  company_logo : Option Image
  watermark : Option Image
  company_address : String
  deriving DecidableEq, Repr

/-- A persisted PDF template element (`PDFTemplateElement`, `models.py`):
a named region with position, size and font size.  Positions are in points
in a top-left-origin, y-down coordinate space. -/
structure PDFTemplateElement where
  element_name : String
  pos_x : ℚ
  pos_y : ℚ
  width : ℚ
  height : ℚ
  font_size : Int
  deriving DecidableEq, Repr

/-- The template store: the `PDFTemplateElement` table, as a list in
creation order. -/
abbrev TemplateStore := List PDFTemplateElement

/-- The nine seeded defaults of `setup_default_template_elements`
(`views.py`, lines 49-59), verbatim. -/
def defaultElements : TemplateStore :=
  [ ⟨"header_logo", 40, 40, 120, 60, 0⟩,
    ⟨"company_info", 200, 40, 350, 60, 12⟩,
    ⟨"jobcard_meta", 400, 110, 150, 50, 10⟩,
    ⟨"client_details", 40, 110, 200, 40, 10⟩,
    ⟨"start_stop_times", 300, 150, 250, 40, 10⟩,
    ⟨"items_table", 40, 210, 515, 300, 10⟩,
    ⟨"manager_notes", 40, 530, 515, 60, 10⟩,
    ⟨"admin_notes", 40, 600, 515, 60, 10⟩,
    ⟨"signatures", 40, 680, 515, 100, 10⟩ ]

/-- `setup_default_template_elements` (`views.py`): if no elements exist,
create the nine defaults; otherwise do nothing. -/
def setup_default_template_elements (store : TemplateStore) : TemplateStore :=
  if store.isEmpty then defaultElements else store

/-- Lookup in the element dict `{e.element_name: e for e in objects.all()}`:
for a repeated name the later row wins, as in a Python dict comprehension. -/
def lookupEl (store : TemplateStore) (name : String) : Option PDFTemplateElement :=
  store.reverse.find? (fun e => e.element_name == name)

/-- One entry of a layout-save request (`SaveTemplateLayoutView.post`):
a JSON object with a `name` and optional `x`/`y`/`width`/`height` values.
A missing or empty `name` (falsy in Python) is modelled as `""`. -/
structure LayoutItem where
  name : String
  x : Option ℚ
  y : Option ℚ
  width : Option ℚ
  height : Option ℚ
  deriving DecidableEq, Repr

/-- The field assignments of `SaveTemplateLayoutView.post`: overwrite
`pos_x`, `pos_y`, `width`, `height` from the request entry (with the
`item.get(...)` defaults 0, 0, 100, 50 for missing keys); no other field is
assigned. -/
def layoutAssign (item : LayoutItem) (e : PDFTemplateElement) : PDFTemplateElement :=
  { e with
    pos_x := item.x.getD 0
    pos_y := item.y.getD 0
    width := item.width.getD 100
    height := item.height.getD 50 }

/-- Processing of a single layout item by `SaveTemplateLayoutView.post`:
skip falsy names; otherwise `get_or_create(element_name=name)` (creation
uses the model field defaults `pos = (0,0)`, `width = 100`, `height = 50`,
`font_size = 10`), then assign the geometry fields and save. -/
def applyLayoutItem (store : TemplateStore) (item : LayoutItem) : TemplateStore :=
  if item.name = "" then store
  else
    match lookupEl store item.name with
    | some _ =>
        store.map fun e => if e.element_name == item.name then layoutAssign item e else e
    | none =>
        store ++ [layoutAssign item ⟨item.name, 0, 0, 100, 50, 10⟩]

/-- `SaveTemplateLayoutView.post`: process the request's element list in
order against the store. -/
def save_template_layout (store : TemplateStore) (items : List LayoutItem) : TemplateStore :=
  items.foldl applyLayoutItem store

/-! ## The canvas -/

/-- One millimetre in points (`reportlab.lib.units.mm`): 72 / 25.4. -/
def mmQ : ℚ := 72 / (254 / 10)

/-- A4 page width in points (`reportlab.lib.pagesizes.A4`), 210 mm. -/
def A4w : ℚ := 210 * mmQ

/-- A4 page height in points, 297 mm. -/
def A4h : ℚ := 297 * mmQ

/-- A drawing operation emitted onto the canvas.  Coordinates are in the
output space (bottom-left origin, y up), exactly as passed to the
corresponding `reportlab` canvas call. -/
inductive Op where
  /-- `p.rect(...)` drawn by `draw_page_framework` as the page border. -/
  | border (x y w h : ℚ)
  /-- The watermark image drawn by `draw_page_framework`
  (`p.drawImage` after `p.setFillAlpha(0.1)`). -/
  | watermark (path : String) (x y w h alpha : ℚ)
  /-- A `p.rect(...)` call outside the framework (placeholder boxes). -/
  | rect (x y w h : ℚ)
  /-- A `p.drawString` / `p.drawRightString` call. -/
  | text (x y : ℚ) (s : String)
  /-- A `p.drawImage` call (logo, signature). -/
  | image (path : String) (x y w h : ℚ)
  /-- A `table.drawOn(p, x, y)` call drawing a (part of a) table whose
  row data is `rows`. -/
  | tableChunk (x y : ℚ) (rows : List (List String))
  deriving DecidableEq, Repr

/-- A logical content block of the composed document, for the block-level
view of a render: which sections of `generate_pdf_buffer` emitted drawing
operations, in source order. -/
inductive BlockKind where
  | headerLogo
  | companyInfo
  | jobcardMeta
  | clientDetails
  | startStopTimes
  | itemsTable
  | techBlock
  | managerBlock
  | adminBlock
  deriving DecidableEq, Repr

/-- The state of a `NumberedCanvas` while drawing: `pages` are the page
states saved by the overridden `showPage` (each a finished page's operation
list), `cur` is the operation list of the in-progress page (`self._code`),
and `blocks` records which logical sections have emitted operations. -/
structure Canvas where
  pages : List (List Op)
  cur : List Op
  blocks : List BlockKind
  deriving DecidableEq, Repr

/-- The empty canvas handed to `generate_pdf_buffer`. -/
def Canvas.init : Canvas := ⟨[], [], []⟩

/-- Append drawing operations to the in-progress page. -/
def emitOps (c : Canvas) (ops : List Op) : Canvas :=
  { c with cur := c.cur ++ ops }

/-- Append a section's operations, recording its block kind when it actually
drew something. -/
def emitSection (c : Canvas) (k : BlockKind) (ops : List Op) : Canvas :=
  if ops.isEmpty then c
  else { c with cur := c.cur ++ ops, blocks := c.blocks ++ [k] }

/-- `NumberedCanvas.showPage`: save the current page state and start a fresh
page (`self._saved_page_states.append(dict(self.__dict__)); self._startPage()`). -/
def Canvas.showPage (c : Canvas) : Canvas :=
  { c with pages := c.pages ++ [c.cur], cur := [] }

/-- The result of a render: the pages of the emitted PDF and the block-level
view of the composition. -/
structure RenderResult where
  doc : List (List Op)
  blocks : List BlockKind
  deriving DecidableEq, Repr

/-- `NumberedCanvas.draw_page_number`: the running footer text for page `i`
of `n`, right-anchored at (200mm, 15mm). -/
def pageNumberOp (i n : Nat) : Op :=
  Op.text (200 * mmQ) (15 * mmQ) ("Page " ++ toString i ++ " of " ++ toString n)

/-- `NumberedCanvas.save` followed by the base `Canvas.save`:
replay every saved page state, stamping "Page i of n" on it (where `n`
counts only the *saved* states), and emit it via the base `showPage`.  The
base `save` then sees the last restored state's non-empty code list and
calls `self.showPage()` — which dynamically dispatches to the *overridden*
`NumberedCanvas.showPage`, appending that state to `_saved_page_states`
after the replay loop has already run and never emitting it to the
document.  The in-progress page is therefore always discarded: the emitted
document consists exactly of the pages closed by explicit `showPage` calls
during rendering, and a render with no explicit page break yields a
zero-page document. -/
def Canvas.save (c : Canvas) : RenderResult :=
  ⟨c.pages.enum.map (fun p => p.2 ++ [pageNumberOp (p.1 + 1) c.pages.length]), c.blocks⟩

/-! ## Page background (`draw_page_framework`) -/

/-- `draw_page_framework` (`views.py`, lines 87-127): the border inset 20pt
from every edge, then — when branding settings exist and have a *company
logo* — the logo drawn as the watermark: scaled to 60% of the page width
preserving aspect ratio (height = width × aspect from `getSize()`), centred,
at fill alpha 0.1.  A decode failure anywhere in the `try` block is
swallowed.  The `watermark` settings field is never read. -/
def draw_page_framework (width height : ℚ) (settings : Option GlobalSettings) : List Op :=
  [Op.border 20 20 (width - 40) (height - 40)] ++
    (match settings with
     | none => []
     | some s =>
       match s.company_logo with
       | none => []
       | some img =>
         if img.ok then
           let aspect := img.imgH / img.imgW
           let targetW := width * (6 / 10)
           let targetH := targetW * aspect
           [Op.watermark img.path ((width - targetW) / 2) ((height - targetH) / 2)
              targetW targetH (1 / 10)]
         else [])

/-! ## Data binding (`X if is_dummy else jobcard.Y` value selectors) -/

/-- The data source of a render: a bound record, or the preview fixture
(`generate_pdf_buffer(jobcard, is_dummy)`: in preview `jobcard` is `None`
and never read). -/
inductive RenderSource where
  | bound (jc : Jobcard)
  | dummy
  deriving DecidableEq, Repr

/-- The `is_dummy` flag of a source. -/
def RenderSource.isDummy : RenderSource → Bool
  | .bound _ => false
  | .dummy => true

/-- `jc_num = "JC-PREVIEW-123" if is_dummy else jobcard.jobcard_number`. -/
def val_jc_num : RenderSource → String
  | .dummy => "JC-PREVIEW-123"
  | .bound jc => jc.jobcard_number

/-- `jc_date = "2023-10-27" if is_dummy else jobcard.created_at.strftime(...)`. -/
def val_jc_date : RenderSource → String
  | .dummy => "2023-10-27"
  | .bound jc => jc.created_at

/-- `jc_stat = "APPROVED" if is_dummy else jobcard.get_status_display()`. -/
def val_jc_stat : RenderSource → String
  | .dummy => "APPROVED"
  | .bound jc => statusDisplay jc.status

/-- The client-details name resolution (`views.py`, lines 202-203):
`c_name = "Acme Corp" if is_dummy else jobcard.client_name`, then
`if not c_name and not is_dummy: c_name = jobcard.company.name`.
When the record has an empty client name and no company, the attribute
access `jobcard.company.name` raises (`company` is `None`), modelled as
`none`. -/
def resolve_client_name : RenderSource → Option String
  | .dummy => some "Acme Corp"
  | .bound jc =>
    if jc.client_name = "" then
      match jc.company with
      | some co => some co.name
      | none => none
    else some jc.client_name

/-- `tech_name` of the client-details header: `"John Doe"` in preview, else
`jobcard.technician.get_full_name() if jobcard.technician else 'N/A'`. -/
def val_tech_display : RenderSource → String
  | .dummy => "John Doe"
  | .bound jc =>
    match jc.technician with
    | some u => getFullName u
    | none => "N/A"

/-- `start_str`: preview literal, else the formatted start time or `"-"`. -/
def val_start : RenderSource → String
  | .dummy => "2023-10-27 09:00"
  | .bound jc => (jc.time_start).getD "-"

/-- `stop_str`: preview literal, else the formatted stop time or `"-"`. -/
def val_stop : RenderSource → String
  | .dummy => "2023-10-27 11:30"
  | .bound jc => (jc.time_stop).getD "-"

/-- The three preview fixture rows of the items table, repeated five times
(`[...] * 5`, `views.py` line 236). -/
def dummyRows : List (List String) :=
  (List.replicate 5
    [ ["Diagnosed network issue", "Cat6 Cable", "10m", "Jane Smith"],
      ["Replaced Switch", "24-Port Switch", "1", "Jane Smith"],
      ["Configured VLANs", "-", "1", "IT Manager"] ]).flatten

/-- The items-table data: the header row, then the fixture rows in preview
or `[item.description, item.parts_used, str(item.qty), item.person_helped]`
for each of the record's items in insertion order. -/
def val_table_data (src : RenderSource) : List (List String) :=
  ["Description", "Parts Used", "Qty", "Person Helped"] ::
    (match src with
     | .dummy => dummyRows
     | .bound jc =>
       jc.items.map fun it => [it.description, it.parts_used, toString it.qty, it.person_helped])

/-- `status = "INVOICED" if is_dummy else jobcard.status` (the raw status
code compared by the conditional sections). -/
def val_status : RenderSource → Status
  | .dummy => .INVOICED
  | .bound jc => jc.status

/-- `tech_notes` for the flowing section. -/
def val_tech_notes : RenderSource → String
  | .dummy => "Replaced parts and tested."
  | .bound jc => jc.tech_notes

/-- `tech_sig = None if is_dummy else jobcard.tech_signature`. -/
def val_tech_sig : RenderSource → Option Image
  | .dummy => none
  | .bound jc => jc.tech_signature

/-- `tech_name` of the signature line (`jobcard.tech_name`, not the
technician account). -/
def val_sig_tech_name : RenderSource → String
  | .dummy => "John Doe"
  | .bound jc => jc.tech_name

/-- `client_sig = None if is_dummy else jobcard.client_signature`. -/
def val_client_sig : RenderSource → Option Image
  | .dummy => none
  | .bound jc => jc.client_signature

/-- `client_name` of the signature line (read directly, no company fallback
here). -/
def val_sig_client_name : RenderSource → String
  | .dummy => "Acme Corp"
  | .bound jc => jc.client_name

/-- `manager_notes` of the conditional manager section. -/
def val_manager_notes : RenderSource → String
  | .dummy => "Approved."
  | .bound jc => jc.manager_notes

/-- `manager_sig = None if is_dummy else jobcard.manager_signature`. -/
def val_manager_sig : RenderSource → Option Image
  | .dummy => none
  | .bound jc => jc.manager_signature

/-- `manager_name` of the manager signature line. -/
def val_manager_name : RenderSource → String
  | .dummy => "Boss Man"
  | .bound jc => jc.manager_name

/-- `admin_notes` of the conditional admin section. -/
def val_admin_notes : RenderSource → String
  | .dummy => "Invoiced #999"
  | .bound jc => jc.admin_notes

/-! ## Header sections -/

/-- The company-address line computation (`views.py` line 178): split on
newlines, then commas, strip each piece, keep the non-empty ones, first
four. -/
def addressLines (c_addr : String) : List String :=
  (((c_addr.splitOn "\n").map (fun part => part.splitOn ",")).flatten.map String.trim).filter
      (fun line => line ≠ "") |>.take 4

/-- The logo header section (`views.py`, lines 153-163): draw the company
logo into the element box (swallowing a decode failure), or — in preview
only, when there is no settings row or no logo — a placeholder box with the
text "LOGO". -/
def logoOps (el : Option PDFTemplateElement) (settings : Option GlobalSettings)
    (is_dummy : Bool) : List Op :=
  match el with
  | none => []
  | some el =>
    let rlY := A4h - el.pos_y - el.height
    match settings with
    | some s =>
      match s.company_logo with
      | some img =>
        if img.ok then [Op.image img.path el.pos_x rlY el.width el.height] else []
      | none =>
        if is_dummy then
          [Op.rect el.pos_x rlY el.width el.height, Op.text (el.pos_x + 5) (rlY + 10) "LOGO"]
        else []
    | none =>
      if is_dummy then
        [Op.rect el.pos_x rlY el.width el.height, Op.text (el.pos_x + 5) (rlY + 10) "LOGO"]
      else []

/-- The company-info header section (`views.py`, lines 166-180): company
name (with preview fallback when there is no settings row) and up to four
address lines (with a preview fallback address when empty). -/
def companyInfoOps (el : Option PDFTemplateElement) (settings : Option GlobalSettings)
    (is_dummy : Bool) : List Op :=
  match el with
  | none => []
  | some el =>
    let rlY := A4h - el.pos_y - (el.font_size : ℚ)
    let cName := match settings with | some s => s.company_name | none => "Company Name"
    let cName := if is_dummy && settings.isNone then "Acme Corp" else cName
    let cAddr := match settings with | some s => s.company_address | none => ""
    let cAddr := if is_dummy && cAddr = "" then "123 Fake Street\nCity, Country" else cAddr
    [Op.text el.pos_x rlY cName] ++
      (addressLines cAddr).enum.map fun p =>
        Op.text el.pos_x (rlY - (((p.1 : ℚ) + 1) * ((el.font_size : ℚ) + 2))) p.2

/-- The jobcard-meta header section (`views.py`, lines 183-194). -/
def metaOps (el : Option PDFTemplateElement) (num date stat : String) : List Op :=
  match el with
  | none => []
  | some el =>
    let rlY := A4h - el.pos_y - (el.font_size : ℚ)
    [ Op.text el.pos_x rlY ("Jobcard No: " ++ num),
      Op.text el.pos_x (rlY - 12) ("Date: " ++ date),
      Op.text el.pos_x (rlY - 24) ("Status: " ++ stat) ]

/-- The client-details header section (`views.py`, lines 197-208), given the
already-resolved client name. -/
def clientOps (el : Option PDFTemplateElement) (cName techName : String) : List Op :=
  match el with
  | none => []
  | some el =>
    let rlY := A4h - el.pos_y - (el.font_size : ℚ)
    [ Op.text el.pos_x rlY ("Client Name: " ++ cName),
      Op.text el.pos_x (rlY - 12) ("Technician: " ++ techName) ]

/-- The start/stop-times header section (`views.py`, lines 211-220). -/
def timesOps (el : Option PDFTemplateElement) (startStr stopStr : String) : List Op :=
  match el with
  | none => []
  | some el =>
    let rlY := A4h - el.pos_y - (el.font_size : ℚ)
    [ Op.text el.pos_x rlY ("Start: " ++ startStr),
      Op.text (el.pos_x + 120) rlY ("Stop: " ++ stopStr) ]

/-! ## The items table and its overflow loop

`Table.wrapOn` reports the table height as the sum of the row heights, and
`Table.split(availWidth, availHeight)` (reportlab, `splitByRow`, no repeated
rows) returns `[]` when not even the first row fits the available height,
`[self]` when every row fits, and otherwise the two tables
`[rows[:n], rows[n:]]` where `n` is the largest number of leading rows whose
cumulative height stays within the available height.  Row heights are
supplied by the abstract parameter `rowH`. -/

/-- The height of a table: the sum of its row heights (`Table.wrapOn`). -/
def tableHeight (rowH : List String → ℚ) (rows : List (List String)) : ℚ :=
  (rows.map rowH).sum

/-- The number of leading rows whose cumulative height fits `avail`
(reportlab's first possible split row position). -/
def fitCount (rowH : List String → ℚ) : List (List String) → ℚ → Nat
  | [], _ => 0
  | r :: rs, avail => if rowH r ≤ avail then fitCount rowH rs (avail - rowH r) + 1 else 0

/-- `Table.split`: the list of sub-tables reportlab returns (see the section
comment). -/
def tableSplit (rowH : List String → ℚ) (rows : List (List String)) (avail : ℚ) :
    List (List (List String)) :=
  if fitCount rowH rows avail = 0 then []
  else if fitCount rowH rows avail = rows.length then [rows]
  else [rows.take (fitCount rowH rows avail), rows.drop (fitCount rowH rows avail)]

/-- One step structure of the drawing loop of the items table (`views.py`,
lines 259-289), with a structural fuel bound so that the function reduces in
the kernel.  Each loop iteration either terminates or continues with the
strictly shorter remainder of a split, so `rows.length` fuel is always
enough (`drawTableGo_fuel`); the `fuel = 0` guard in the recursive branch is
unreachable from `drawTableLoop`.

Returns the canvas and the final `current_y_position`, together with a flag
recording whether the `len(split_tables) == 1` force-draw branch was taken;
`none` models the uncaught `IndexError` raised by `split_tables[0]` when
`split` returns the empty list (no row fits). -/
def drawTableGo (rowH : List String → ℚ) (posX : ℚ) (settings : Option GlobalSettings) :
    Nat → List (List String) → ℚ → ℚ → Canvas → Option (Canvas × ℚ × Bool)
  | fuel, rows, tableStartY, availHeight, c =>
    let h := tableHeight rowH rows
    if h ≤ availHeight then
      -- fits completely
      some (emitOps c [Op.tableChunk posX (tableStartY - h) rows], tableStartY - h, false)
    else
      match tableSplit rowH rows availHeight with
      | [] =>
        -- `split_tables[0]` on an empty list: IndexError
        none
      | [t] =>
        -- couldn't split (row too big): force draw and clip
        some (emitOps c [Op.tableChunk posX (tableStartY - h) t], tableStartY - h, true)
      | part :: rest :: _ =>
        let hPart := tableHeight rowH part
        let c := emitOps c [Op.tableChunk posX (tableStartY - hPart) part]
        let c := emitOps c.showPage (draw_page_framework A4w A4h settings)
        match fuel with
        | 0 => none
        | fuel + 1 => drawTableGo rowH posX settings fuel rest (A4h - 40) (A4h - 40 - 40) c

/-- The drawing loop of the items table: `drawTableGo` with enough fuel. -/
def drawTableLoop (rowH : List String → ℚ) (posX : ℚ) (settings : Option GlobalSettings)
    (rows : List (List String)) (tableStartY availHeight : ℚ) (c : Canvas) :
    Option (Canvas × ℚ × Bool) :=
  drawTableGo rowH posX settings rows.length rows tableStartY availHeight c

/-- The items-table section (`views.py`, lines 225-289): when the element is
present, compute the table start from the element's configured top, leave a
40pt bottom margin, and run the drawing loop; `current_y_position` stays 0
when the element is absent. -/
def tableSection (rowH : List String → ℚ) (el : Option PDFTemplateElement)
    (data : List (List String)) (settings : Option GlobalSettings) (c : Canvas) :
    Option (Canvas × ℚ) :=
  match el with
  | none => some (c, 0)
  | some el =>
    let tableStartY := A4h - el.pos_y
    let c := { c with blocks := c.blocks ++ [BlockKind.itemsTable] }
    match drawTableLoop rowH el.pos_x settings data tableStartY (tableStartY - 40) c with
    | none => none
    | some (c, y, _) => some (c, y)

/-! ## The flowing notes and signature sections -/

/-- `check_page_break(required_height, current_y, p)` (`views.py`, lines
301-306): if the block does not fit above the 40pt bottom margin, show the
page, redraw the framework and reset the cursor to the top margin. -/
def check_page_break (settings : Option GlobalSettings) (required y : ℚ) (c : Canvas) :
    Canvas × ℚ :=
  if y - required < 40 then
    (emitOps c.showPage (draw_page_framework A4w A4h settings), A4h - 40)
  else (c, y)

/-- Draw wrapped note lines at x = 40, advancing the cursor 12pt per line. -/
def drawNoteLines (c : Canvas) (y : ℚ) (lines : List String) : Canvas × ℚ :=
  lines.foldl (fun acc line => (emitOps acc.1 [Op.text 40 acc.2 line], acc.2 - 12)) (c, y)

/-- A signature image drawn into its placeholder box, when present and
decodable; a decode failure is swallowed (`try ... except: pass`). -/
def sigImageOps (sig : Option Image) (x y : ℚ) : List Op :=
  match sig with
  | some img => if img.ok then [Op.image img.path x y 140 40] else []
  | none => []

/-- Append a block kind unconditionally (the flowing sections always draw). -/
def pushBlock (c : Canvas) (k : BlockKind) : Canvas :=
  { c with blocks := c.blocks ++ [k] }

/-- The technician-notes + technician/client signature section (`views.py`,
lines 310-352): always drawn. -/
def techFlow (wrapFn : String → ℚ → List String) (settings : Option GlobalSettings)
    (notes techName clientName : String) (techSig clientSig : Option Image)
    (c : Canvas) (y : ℚ) : Canvas × ℚ :=
  let r1 := check_page_break settings 120 y c
  let c1 := emitOps (pushBlock r1.1 .techBlock) [Op.text 40 r1.2 "Technician Notes:"]
  let r2 := drawNoteLines c1 (r1.2 - 15) (wrapFn notes (A4w - 80))
  let r3 := check_page_break settings 80 (r2.2 - 20) r2.1
  let c2 := emitOps r3.1
    [Op.text 40 r3.2 ("Tech Sign: " ++ techName), Op.text 250 r3.2 ("Client Sign: " ++ clientName)]
  let y2 := r3.2 - 50
  let c3 := emitOps c2 [Op.rect 40 y2 150 50, Op.rect 250 y2 150 50]
  let c4 := emitOps c3 (sigImageOps techSig 45 (y2 + 5))
  let c5 := emitOps c4 (sigImageOps clientSig 255 (y2 + 5))
  (c5, y2 - 20)

/-- The conditional manager section (`views.py`, lines 355-382): notes then
a single manager signature box. -/
def managerFlow (wrapFn : String → ℚ → List String) (settings : Option GlobalSettings)
    (notes managerName : String) (managerSig : Option Image)
    (c : Canvas) (y : ℚ) : Canvas × ℚ :=
  let r1 := check_page_break settings 100 y c
  let c1 := emitOps (pushBlock r1.1 .managerBlock) [Op.text 40 r1.2 "Manager Notes:"]
  let r2 := drawNoteLines c1 (r1.2 - 15) (wrapFn notes (A4w - 80))
  let r3 := check_page_break settings 80 (r2.2 - 20) r2.1
  let c2 := emitOps r3.1 [Op.text 40 r3.2 ("Manager Sign: " ++ managerName)]
  let y2 := r3.2 - 50
  let c3 := emitOps c2 [Op.rect 40 y2 150 50]
  let c4 := emitOps c3 (sigImageOps managerSig 45 (y2 + 5))
  (c4, y2 - 20)

/-- The conditional admin section (`views.py`, lines 385-398). -/
def adminFlow (wrapFn : String → ℚ → List String) (settings : Option GlobalSettings)
    (notes : String) (c : Canvas) (y : ℚ) : Canvas × ℚ :=
  let r1 := check_page_break settings 50 y c
  let c1 := emitOps (pushBlock r1.1 .adminBlock) [Op.text 40 r1.2 "Admin Notes:"]
  drawNoteLines c1 (r1.2 - 15) (wrapFn notes (A4w - 80))

/-! ## The full render (`generate_pdf_buffer`) -/

/-- The page-1 framework and the first three fixed header sections of
`generate_pdf_buffer` (`views.py`, lines 143-194), given the already-seeded
element snapshot. -/
def headerCanvas (src : RenderSource) (store : TemplateStore)
    (settings : Option GlobalSettings) : Canvas :=
  let el := lookupEl store
  let c := emitOps Canvas.init (draw_page_framework A4w A4h settings)
  let c := emitSection c .headerLogo (logoOps (el "header_logo") settings src.isDummy)
  let c := emitSection c .companyInfo (companyInfoOps (el "company_info") settings src.isDummy)
  emitSection c .jobcardMeta
    (metaOps (el "jobcard_meta") (val_jc_num src) (val_jc_date src) (val_jc_stat src))

/-- The flowing part of `generate_pdf_buffer` after the items table
(`views.py`, lines 291-402): the technician section, the conditional
manager and admin sections, and the final save. -/
def flowPhase (wrapFn : String → ℚ → List String) (settings : Option GlobalSettings)
    (status : Status) (techNotes techName clientName : String)
    (techSig clientSig : Option Image) (managerNotes managerName : String)
    (managerSig : Option Image) (adminNotes : String) (c : Canvas) (y : ℚ) : RenderResult :=
  let r1 := techFlow wrapFn settings techNotes techName clientName techSig clientSig c y
  let r2 :=
    if status = .APPROVED ∨ status = .INVOICED then
      managerFlow wrapFn settings managerNotes managerName managerSig r1.1 r1.2
    else r1
  let r3 :=
    if status = .INVOICED then adminFlow wrapFn settings adminNotes r2.1 r2.2
    else r2
  r3.1.save

/-- `generate_pdf_buffer(jobcard, is_dummy)` (`views.py`, lines 129-402):
seed the template store if empty, read one element snapshot, open page 1
with its framework, place the fixed header sections, run the items-table
overflow loop, flow the notes/signature sections with page breaks, apply
the conditional manager/admin sections, and save.  `none` models an
uncaught exception (the claim-relevant ones: the `jobcard.company.name`
attribute error in the client-details header, and the `split_tables[0]`
index error in the table loop). -/
def generate_pdf_buffer (wrapFn : String → ℚ → List String)
    (rowH : List String → ℚ) (src : RenderSource) (store : TemplateStore)
    (settings : Option GlobalSettings) : Option RenderResult :=
  let store := setup_default_template_elements store
  let el := lookupEl store
  let c := headerCanvas src store settings
  match resolve_client_name src with
  | none => none
  | some cName =>
    let c := emitSection c .clientDetails (clientOps (el "client_details") cName (val_tech_display src))
    let c := emitSection c .startStopTimes (timesOps (el "start_stop_times") (val_start src) (val_stop src))
    match tableSection rowH (el "items_table") (val_table_data src) settings c with
    | none => none
    | some tr =>
      some (flowPhase wrapFn settings (val_status src) (val_tech_notes src)
        (val_sig_tech_name src) (val_sig_client_name src) (val_tech_sig src)
        (val_client_sig src) (val_manager_notes src) (val_manager_name src)
        (val_manager_sig src) (val_admin_notes src) tr.1 (tr.2 - 20))

/-! ## Observation functions -/

/-- The row data carried by a drawing operation (empty for non-table ops). -/
def chunkRows : Op → List (List String)
  | .tableChunk _ _ rows => rows
  | _ => []

/-- All table rows drawn on a canvas, in drawing order (saved pages first,
then the in-progress page). -/
def tableRowsDrawn (c : Canvas) : List (List String) :=
  ((c.pages.flatten ++ c.cur).map chunkRows).flatten

/-- All table rows appearing in an emitted document, in order. -/
def docTableRows (doc : List (List Op)) : List (List String) :=
  (doc.flatten.map chunkRows).flatten

/-- The paths of the watermark images among a list of operations. -/
def watermarkPaths (ops : List Op) : List String :=
  ops.filterMap fun op =>
    match op with
    | .watermark p _ _ _ _ _ => some p
    | _ => none

/-- Whether a store contains an element of the given name. -/
def hasName (store : TemplateStore) (n : String) : Prop :=
  ∃ e ∈ store, e.element_name = n

/-! ## Concrete fixtures used by counterexamples and witnesses -/

/-- Branding settings carrying both a decodable logo and a distinct
decodable watermark asset. -/
def wmBranding : GlobalSettings :=
  { company_name := "Co"
    company_logo := some ⟨"logo.png", 100, 50, true⟩
    watermark := some ⟨"mark.png", 100, 50, true⟩
    company_address := "" }

/-- A bound record with neither a company nor a client name (a draft can be
saved in this state: the form only enforces company-or-client on submit). -/
def jcNoClient : Jobcard :=
  { jobcard_number := "JC-1", company := none, technician := none, status := .DRAFT,
    time_start := none, time_stop := none, tech_signature := none, client_signature := none,
    manager_signature := none, tech_name := "", client_name := "", manager_name := "",
    tech_notes := "", manager_notes := "", admin_notes := "", created_at := "2024-01-01",
    items := [] }

/-- A well-formed bound record with one line item. -/
def jcOne : Jobcard :=
  { jcNoClient with
      company := some ⟨"Acme", "acme@example.com"⟩,
      client_name := "Client",
      items := [⟨"Task", "Parts", 1, "Helper"⟩] }

/-- A template store containing only the items-table element (at its default
geometry). -/
def storeItemsOnly : TemplateStore := [⟨"items_table", 40, 210, 515, 300, 10⟩]

/-- A constant row-height assignment of 300pt, making two rows overflow the
default table region of one A4 page. -/
def rh300 : List String → ℚ := fun _ => 300

/-- The identity text-wrap: every string is a single line. -/
def wrap1 : String → ℚ → List String := fun s _ => [s]

/-- The per-element invariant of the layout save, relative to the original
store: either some original element has the same name and the same font
size, or the name is new to the store and the font size is the model
default 10. -/
def fontSpec (store₀ : TemplateStore) (e' : PDFTemplateElement) : Prop :=
  (∃ e ∈ store₀, e.element_name = e'.element_name ∧ e.font_size = e'.font_size) ∨
    ((∀ e ∈ store₀, e.element_name ≠ e'.element_name) ∧ e'.font_size = 10)

/-- The mode-parity simulation relation on canvases: equal page counts,
equal block sequences, and agreeing emptiness of the in-progress page.
Two renders whose canvases stay related produce documents with the same
page count and the same block sequence, whatever the drawn text differs
in. -/
def CanvasR (c₁ c₂ : Canvas) : Prop :=
  c₁.pages.length = c₂.pages.length ∧ c₁.blocks = c₂.blocks ∧ (c₁.cur = [] ↔ c₂.cur = [])

/-- Relatedness of two optional results under a relation on the values. -/
def optRel (R : α → β → Prop) : Option α → Option β → Prop
  | none, none => True
  | some a, some b => R a b
  | _, _ => False

/-- A bound record whose accessor values match the preview fixture wherever
a bound record can match it (the fixture's quantity cell "10m" is not the
string rendering of any integer, so the item rows can only agree up to row
heights). -/
def jcFix : Jobcard :=
  { jobcard_number := "JC-PREVIEW-123", company := some ⟨"Acme Corp", "acme@example.com"⟩,
    technician := some ⟨"jdoe", "John", "Doe"⟩, status := .INVOICED,
    time_start := some "2023-10-27 09:00", time_stop := some "2023-10-27 11:30",
    tech_signature := none, client_signature := none, manager_signature := none,
    tech_name := "John Doe", client_name := "Acme Corp", manager_name := "Boss Man",
    tech_notes := "Replaced parts and tested.", manager_notes := "Approved.",
    admin_notes := "Invoiced #999", created_at := "2023-10-27",
    items :=
      (List.replicate 5
        [ (⟨"Diagnosed network issue", "Cat6 Cable", 10, "Jane Smith"⟩ : JobcardItem),
          ⟨"Replaced Switch", "24-Port Switch", 1, "Jane Smith"⟩,
          ⟨"Configured VLANs", "-", 1, "IT Manager"⟩ ]).flatten }

/-- The block kinds emitted by the header phase and the table section of
`generate_pdf_buffer`, as a function of the element snapshot, settings and
mode: a header section contributes its kind exactly when it draws, and the
items-table section contributes its kind exactly when its element exists. -/
def headerBlocksOf (src : RenderSource) (store : TemplateStore)
    (settings : Option GlobalSettings) : List BlockKind :=
  let store := setup_default_template_elements store
  let el := lookupEl store
  (if (logoOps (el "header_logo") settings src.isDummy).isEmpty then [] else [.headerLogo]) ++
  (if (companyInfoOps (el "company_info") settings src.isDummy).isEmpty then []
    else [.companyInfo]) ++
  (if (metaOps (el "jobcard_meta") (val_jc_num src) (val_jc_date src) (val_jc_stat src)).isEmpty
    then [] else [.jobcardMeta]) ++
  (if (el "client_details").isSome then [BlockKind.clientDetails] else []) ++
  (if (timesOps (el "start_stop_times") (val_start src) (val_stop src)).isEmpty then []
    else [.startStopTimes]) ++
  (if (el "items_table").isSome then [BlockKind.itemsTable] else [])

/-!
# Theorems

Concrete evaluations use `decide`; the Batteries rational operations are
marked irreducible for the elaborator, which is re-enabled locally (the
kernel is unaffected by reducibility attributes).
-/

section Evaluation

attribute [local semireducible] Rat.add Rat.sub Rat.mul Rat.inv

/-! ### C7 — default seeding -/

/-- C7: when the template store is empty, the default-seeding operation
creates exactly the nine fixed element names with their documented default
geometry, and the operation is idempotent: running it again after it has
run (on any resulting store) makes no change. -/
theorem c7_ensure_defaults :
    setup_default_template_elements [] = defaultElements ∧
    defaultElements.map (fun e => e.element_name) =
      ["header_logo", "company_info", "jobcard_meta", "client_details", "start_stop_times",
       "items_table", "manager_notes", "admin_notes", "signatures"] ∧
    ∀ store : TemplateStore,
      setup_default_template_elements (setup_default_template_elements store) =
        setup_default_template_elements store := by
  refine ⟨rfl, rfl, fun store => ?_⟩
  cases store with
  | nil => rfl
  | cons e s => rfl

/-! ### C10 — layout save touches only geometry -/

theorem layoutAssign_element_name (it : LayoutItem) (e : PDFTemplateElement) :
    (layoutAssign it e).element_name = e.element_name := rfl

theorem layoutAssign_font_size (it : LayoutItem) (e : PDFTemplateElement) :
    (layoutAssign it e).font_size = e.font_size := rfl

theorem applyLayoutItem_hasName (store : TemplateStore) (it : LayoutItem) (n : String)
    (h : hasName store n) : hasName (applyLayoutItem store it) n := by
  obtain ⟨e, he, hn⟩ := h
  unfold applyLayoutItem
  split
  · exact ⟨e, he, hn⟩
  · split
    · refine ⟨if e.element_name == it.name then layoutAssign it e else e,
        List.mem_map_of_mem _ he, ?_⟩
      split <;> simp [layoutAssign_element_name, hn]
    · exact ⟨e, List.mem_append_left _ he, hn⟩

theorem applyLayoutItem_fontSpec (store₀ store : TemplateStore) (it : LayoutItem)
    (hP : ∀ e' ∈ store, fontSpec store₀ e')
    (hmono : ∀ n, hasName store₀ n → hasName store n) :
    ∀ e' ∈ applyLayoutItem store it, fontSpec store₀ e' := by
  intro e' he'
  unfold applyLayoutItem at he'
  split at he'
  · exact hP e' he'
  · rename_i hname
    split at he'
    · obtain ⟨e, he, heq⟩ := List.mem_map.mp he'
      have hspec := hP e he
      subst heq
      split
      · unfold fontSpec
        rcases hspec with ⟨e₀, he₀, hn₀, hf₀⟩ | ⟨hnone, hf⟩
        · exact Or.inl ⟨e₀, he₀, by simp [layoutAssign_element_name, hn₀],
            by simp [layoutAssign_font_size, hf₀]⟩
        · exact Or.inr ⟨by simpa [layoutAssign_element_name] using hnone,
            by simpa [layoutAssign_font_size] using hf⟩
      · exact hspec
    · rename_i hlook
      rcases List.mem_append.mp he' with hmem | hmem
      · exact hP e' hmem
      · have : e' = layoutAssign it ⟨it.name, 0, 0, 100, 50, 10⟩ := by simpa using hmem
        subst this
        refine Or.inr ⟨?_, rfl⟩
        intro e he hcontra
        have : hasName store it.name := hmono it.name ⟨e, he, by
          simpa [layoutAssign_element_name] using hcontra⟩
        obtain ⟨e₂, he₂, hn₂⟩ := this
        have hnone : ∀ x ∈ store, ¬x.element_name = it.name := by
          simpa [lookupEl] using hlook
        exact hnone e₂ he₂ hn₂

theorem save_template_layout_invariant (store₀ : TemplateStore) :
    ∀ (items : List LayoutItem) (store : TemplateStore),
      (∀ e' ∈ store, fontSpec store₀ e') →
      (∀ n, hasName store₀ n → hasName store n) →
      ∀ e' ∈ save_template_layout store items, fontSpec store₀ e' := by
  intro items
  induction items with
  | nil => intro store hP _ e' he'; exact hP e' he'
  | cons it its ih =>
    intro store hP hmono e' he'
    exact ih (applyLayoutItem store it)
      (applyLayoutItem_fontSpec store₀ store it hP hmono)
      (fun n hn => applyLayoutItem_hasName store it n (hmono n hn))
      e' he'

theorem save_template_layout_frame :
    ∀ (items : List LayoutItem) (store : TemplateStore) (e : PDFTemplateElement),
      e ∈ store → (∀ it ∈ items, it.name ≠ e.element_name) →
      e ∈ save_template_layout store items := by
  intro items
  induction items with
  | nil => intro store e he _; exact he
  | cons it its ih =>
    intro store e he hno
    have hne : it.name ≠ e.element_name := hno it (List.mem_cons_self _ _)
    refine ih (applyLayoutItem store it) e ?_ (fun it' hit' => hno it' (List.mem_cons_of_mem _ hit'))
    unfold applyLayoutItem
    split
    · exact he
    · split
      · have : (fun x => if x.element_name == it.name then layoutAssign it x else x) e = e := by
          simp [Ne.symm hne]
        exact this ▸ List.mem_map_of_mem _ he
      · exact List.mem_append_left _ he

/-- C10: a layout-save request modifies only the geometry fields of the
elements it names.  Elements whose name is not in the request survive
completely unchanged; every element of the resulting store either shares its
name and `font_size` with an original element, or has a name new to the
store and the model default `font_size = 10` (not the seeded documented
default for that name). -/
theorem c10_layout_save (store : TemplateStore) (items : List LayoutItem) :
    (∀ e ∈ store, (∀ it ∈ items, it.name ≠ e.element_name) →
      e ∈ save_template_layout store items) ∧
    (∀ e' ∈ save_template_layout store items, fontSpec store e') := by
  constructor
  · intro e he hno
    exact save_template_layout_frame items store e he hno
  · exact save_template_layout_invariant store items store
      (fun e' he' => Or.inl ⟨e', he', rfl, rfl⟩) (fun _ hn => hn)

/-- C10 witness: saving geometry for the existing `header_logo` (seeded with
`font_size = 0`) and for a fresh name.  The existing element keeps
`font_size = 0`, the fresh element gets the model default 10 (not the seeded
0 of `header_logo`), and the untouched `company_info` row survives
unchanged. -/
theorem c10_layout_save_witness :
    (⟨"company_info", 200, 40, 350, 60, 12⟩ : PDFTemplateElement) ∈
      save_template_layout [⟨"header_logo", 40, 40, 120, 60, 0⟩,
        ⟨"company_info", 200, 40, 350, 60, 12⟩]
        [⟨"header_logo", some 1, some 2, some 3, some 4⟩, ⟨"extra_box", none, none, none, none⟩] ∧
    fontSpec [⟨"header_logo", 40, 40, 120, 60, 0⟩, ⟨"company_info", 200, 40, 350, 60, 12⟩]
      ⟨"header_logo", 1, 2, 3, 4, 0⟩ ∧
    save_template_layout [⟨"header_logo", 40, 40, 120, 60, 0⟩,
        ⟨"company_info", 200, 40, 350, 60, 12⟩]
        [⟨"header_logo", some 1, some 2, some 3, some 4⟩, ⟨"extra_box", none, none, none, none⟩] =
      [⟨"header_logo", 1, 2, 3, 4, 0⟩, ⟨"company_info", 200, 40, 350, 60, 12⟩,
        ⟨"extra_box", 0, 0, 100, 50, 10⟩] := by
  refine ⟨?_, ?_, by decide⟩
  · exact (c10_layout_save _ _).1 _ (by decide) (by decide)
  · exact (c10_layout_save [⟨"header_logo", 40, 40, 120, 60, 0⟩,
      ⟨"company_info", 200, 40, 350, 60, 12⟩]
      [⟨"header_logo", some 1, some 2, some 3, some 4⟩,
        ⟨"extra_box", none, none, none, none⟩]).2
      ⟨"header_logo", 1, 2, 3, 4, 0⟩ (by decide)

/-! ### C1 — watermark resolution -/

/-- C1 counterexample: with branding that has both a decodable watermark
asset (`mark.png`) and a distinct logo (`logo.png`), the page framework
draws `logo.png` as its watermark and never `mark.png`; and with the logo
absent, nothing is drawn even though the watermark asset is present.  The
watermark settings field is ignored by `draw_page_framework`. -/
theorem c1_counterexample :
    watermarkPaths (draw_page_framework 600 800 (some wmBranding)) = ["logo.png"] ∧
    watermarkPaths (draw_page_framework 600 800
      (some { wmBranding with company_logo := none })) = [] := by
  exact ⟨rfl, rfl⟩

/-- C1 amended: the page-background drawer resolves its watermark image as
the branding settings' *company logo* unconditionally (the explicit
watermark asset is never consulted); when the logo is present and decodes,
it is scaled to 60% of the page width preserving aspect ratio, centred on
the page, and drawn at 10% opacity; when the logo is absent or fails to
decode, no watermark is drawn (the failure is swallowed) even if a
watermark asset exists. -/
theorem c1_watermark_source (width height : ℚ) (s : GlobalSettings) :
    (Op.border 20 20 (width - 40) (height - 40) ∈ draw_page_framework width height (some s)) ∧
    (∀ img : Image, s.company_logo = some img → img.ok = true →
      Op.watermark img.path ((width - width * (6 / 10)) / 2)
          ((height - width * (6 / 10) * (img.imgH / img.imgW)) / 2)
          (width * (6 / 10)) (width * (6 / 10) * (img.imgH / img.imgW)) (1 / 10)
        ∈ draw_page_framework width height (some s)) ∧
    (∀ p x y w h a, Op.watermark p x y w h a ∈ draw_page_framework width height (some s) →
      ∃ img : Image, s.company_logo = some img ∧ img.ok = true ∧ p = img.path) ∧
    (s.company_logo = none →
      watermarkPaths (draw_page_framework width height (some s)) = []) ∧
    (∀ img : Image, s.company_logo = some img → img.ok = false →
      watermarkPaths (draw_page_framework width height (some s)) = []) := by
  refine ⟨?_, ?_, ?_, ?_, ?_⟩
  · simp [draw_page_framework]
  · intro img himg hok
    simp [draw_page_framework, himg, hok]
  · intro p x y w h a hmem
    rcases hcl : s.company_logo with _ | img
    · simp [draw_page_framework, hcl] at hmem
    · rcases hok : img.ok with _ | _
      · simp [draw_page_framework, hcl, hok] at hmem
      · refine ⟨img, rfl, hok, ?_⟩
        simp [draw_page_framework, hcl, hok] at hmem
        exact hmem.1
  · intro hnone
    simp [draw_page_framework, hnone, watermarkPaths]
  · intro img himg hok
    simp [draw_page_framework, himg, hok, watermarkPaths]

/-- C1 amended, witness: the logo of `wmBranding` (100×50 px) on a 600×800
page is drawn as a watermark 360pt wide and 180pt tall at (120, 310) with
alpha 0.1. -/
theorem c1_watermark_source_witness :
    Op.watermark "logo.png" 120 310 360 180 (1 / 10)
      ∈ draw_page_framework 600 800 (some wmBranding) := by
  have h := (c1_watermark_source 600 800 wmBranding).2.1 ⟨"logo.png", 100, 50, true⟩ rfl rfl
  norm_num at h
  exact h

/-! ### C2 — client-details fallback chain -/

/-- C2: a bound record with neither a company nor a client name crashes the
client-details header instead of rendering "N/A": the name resolution
reaches `jobcard.company.name` with `company = None` (modelled by `none`),
and the whole render aborts.  With a company attached the fallback to the
company name does work — the missing step is only the final "N/A". -/
theorem c2_company_crash :
    resolve_client_name (.bound jcNoClient) = none ∧
    generate_pdf_buffer wrap1 (fun _ => 20) (.bound jcNoClient)
      [⟨"client_details", 40, 110, 200, 40, 10⟩] none = none ∧
    resolve_client_name (.bound { jcNoClient with company := some ⟨"Acme", ""⟩ }) =
      some "Acme" := by
  exact ⟨rfl, rfl, rfl⟩

/-! ### C6 — table loop termination and shape -/

theorem fitCount_le_length (rowH : List String → ℚ) :
    ∀ (rows : List (List String)) (avail : ℚ), fitCount rowH rows avail ≤ rows.length := by
  intro rows
  induction rows with
  | nil => intro avail; simp [fitCount]
  | cons r rs ih =>
    intro avail
    simp only [fitCount, List.length_cons]
    split
    · have := ih (avail - rowH r)
      omega
    · simp

theorem fitCount_full (rowH : List String → ℚ) :
    ∀ (rows : List (List String)) (avail : ℚ),
      fitCount rowH rows avail = rows.length →
      rows = [] ∨ tableHeight rowH rows ≤ avail := by
  intro rows
  induction rows with
  | nil => exact fun _ _ => Or.inl rfl
  | cons r rs ih =>
    intro avail h
    right
    simp only [fitCount, List.length_cons] at h
    split at h
    · rename_i hle
      have h' : fitCount rowH rs (avail - rowH r) = rs.length := by omega
      rcases ih _ h' with rfl | hsum
      · simpa [tableHeight] using hle
      · simp only [tableHeight, List.map_cons, List.sum_cons]
        simp only [tableHeight] at hsum
        linarith
    · omega

/-- The three possible shapes of `Table.split` in the embedding. -/
theorem tableSplit_cases (rowH : List String → ℚ) (rows : List (List String)) (avail : ℚ) :
    (tableSplit rowH rows avail = [] ∧ fitCount rowH rows avail = 0) ∨
    (tableSplit rowH rows avail = [rows] ∧ tableHeight rowH rows ≤ avail) ∨
    (∃ n, 0 < n ∧ n < rows.length ∧ fitCount rowH rows avail = n ∧
      tableSplit rowH rows avail = [rows.take n, rows.drop n]) := by
  unfold tableSplit
  split
  · exact Or.inl ⟨rfl, by assumption⟩
  · split
    · rename_i hn0 hnlen
      refine Or.inr (Or.inl ⟨rfl, ?_⟩)
      rcases fitCount_full rowH rows avail hnlen with rfl | hle
      · simp at hnlen
        exact absurd hnlen.symm hn0
      · exact hle
    · rename_i hn0 hnlen
      exact Or.inr (Or.inr ⟨fitCount rowH rows avail, Nat.pos_of_ne_zero hn0,
        lt_of_le_of_ne (fitCount_le_length rowH rows avail) hnlen, rfl, rfl⟩)

theorem tableRowsDrawn_emitOps (c : Canvas) (ops : List Op) :
    tableRowsDrawn (emitOps c ops) = tableRowsDrawn c ++ (ops.map chunkRows).flatten := by
  simp [tableRowsDrawn, emitOps]

theorem tableRowsDrawn_showPage (c : Canvas) :
    tableRowsDrawn c.showPage = tableRowsDrawn c := by
  simp [tableRowsDrawn, Canvas.showPage]

theorem chunkRows_framework (w h : ℚ) (s : Option GlobalSettings) :
    ((draw_page_framework w h s).map chunkRows).flatten = [] := by
  rcases s with _ | s
  · rfl
  · rcases hcl : s.company_logo with _ | img
    · simp [draw_page_framework, hcl, chunkRows]
    · rcases hok : img.ok with _ | _
      · simp [draw_page_framework, hcl, hok, chunkRows]
      · simp [draw_page_framework, hcl, hok, chunkRows]

theorem drawTableGo_complete (rowH : List String → ℚ) (posX : ℚ)
    (settings : Option GlobalSettings) :
    ∀ (fuel : Nat) (rows : List (List String)) (startY avail : ℚ) (c c' : Canvas)
      (y : ℚ) (f : Bool),
      drawTableGo rowH posX settings fuel rows startY avail c = some (c', y, f) →
      f = false ∧ tableRowsDrawn c' = tableRowsDrawn c ++ rows := by
  intro fuel
  induction fuel with
  | zero =>
    intro rows startY avail c c' y f h
    rw [drawTableGo] at h
    split at h
    · rename_i hfit
      simp only [Option.some.injEq, Prod.mk.injEq] at h
      obtain ⟨rfl, rfl, rfl⟩ := h
      refine ⟨rfl, ?_⟩
      simp [tableRowsDrawn_emitOps, chunkRows]
    · rename_i hnofit
      rcases tableSplit_cases rowH rows avail with ⟨hs, _⟩ | ⟨hs, hle⟩ | ⟨n, _, _, _, hs⟩
      · rw [hs] at h; exact absurd h (by simp)
      · exact absurd hle hnofit
      · rw [hs] at h; exact absurd h (by simp)
  | succ fuel ih =>
    intro rows startY avail c c' y f h
    rw [drawTableGo] at h
    split at h
    · rename_i hfit
      simp only [Option.some.injEq, Prod.mk.injEq] at h
      obtain ⟨rfl, rfl, rfl⟩ := h
      refine ⟨rfl, ?_⟩
      simp [tableRowsDrawn_emitOps, chunkRows]
    · rename_i hnofit
      rcases tableSplit_cases rowH rows avail with ⟨hs, _⟩ | ⟨hs, hle⟩ | ⟨n, hn0, hnlen, _, hs⟩
      · rw [hs] at h; exact absurd h (by simp)
      · exact absurd hle hnofit
      · rw [hs] at h
        simp only at h
        have := ih (rows.drop n) (A4h - 40) (A4h - 40 - 40)
          (emitOps (Canvas.showPage (emitOps c
            [Op.tableChunk posX (startY - tableHeight rowH (rows.take n)) (rows.take n)]))
            (draw_page_framework A4w A4h settings)) c' y f h
        refine ⟨this.1, ?_⟩
        rw [this.2, tableRowsDrawn_emitOps, tableRowsDrawn_showPage, tableRowsDrawn_emitOps,
          chunkRows_framework]
        simp [chunkRows, List.take_append_drop]

/-- C6 amended: the items-table drawing loop is total and, whenever it
completes, it has drawn every row exactly once in the original order and
has never taken the force-draw branch (`len(split_tables) == 1` is
unreachable, because reportlab's split only returns a singleton when the
whole table fits, which the loop has already excluded).  When the whole
remaining table fits it is drawn as one chunk; and when not even one row
fits the available space the loop raises an `IndexError` (`split` returns
the empty list and the code indexes it) instead of force-drawing the
oversized row. -/
theorem c6_loop_behaviour (rowH : List String → ℚ) (posX : ℚ)
    (settings : Option GlobalSettings) (rows : List (List String))
    (startY avail : ℚ) (c : Canvas) :
    (∀ c' y f, drawTableLoop rowH posX settings rows startY avail c = some (c', y, f) →
      f = false ∧ tableRowsDrawn c' = tableRowsDrawn c ++ rows) ∧
    (tableHeight rowH rows ≤ avail →
      drawTableLoop rowH posX settings rows startY avail c =
        some (emitOps c [Op.tableChunk posX (startY - tableHeight rowH rows) rows],
          startY - tableHeight rowH rows, false)) ∧
    (¬tableHeight rowH rows ≤ avail → fitCount rowH rows avail = 0 →
      drawTableLoop rowH posX settings rows startY avail c = none) := by
  refine ⟨?_, ?_, ?_⟩
  · intro c' y f h
    exact drawTableGo_complete rowH posX settings rows.length rows startY avail c c' y f h
  · intro hle
    rw [drawTableLoop, drawTableGo]
    simp [hle]
  · intro hnofit hn0
    rw [drawTableLoop, drawTableGo]
    simp [hnofit, tableSplit, hn0]

/-- C6 counterexample: a single row of height 900pt cannot fit even an
empty A4 page (761.9pt of usable height); the loop does not force-draw it
— it raises (`none`), so the claimed forced clipped placement does not
happen. -/
theorem c6_counterexample :
    drawTableLoop (fun _ => 900) 40 none [["oversized row"]]
      (A4h - 210) (A4h - 210 - 40) Canvas.init = none := by decide

/-- C6 witness: a two-row table of total height 600pt overflowing the
591.9pt available under the default table top is split, completed without
the force branch, and both rows are drawn once in order. -/
theorem c6_loop_behaviour_witness :
    (drawTableLoop rh300 40 none [["a"], ["b"]] (A4h - 210) (A4h - 210 - 40)
        Canvas.init).map (fun out => (out.2.2, tableRowsDrawn out.1)) =
      some (false, [["a"], ["b"]]) := by
  rcases hres : drawTableLoop rh300 40 none [["a"], ["b"]] (A4h - 210) (A4h - 210 - 40)
      Canvas.init with _ | ⟨c', y, f⟩
  · exact absurd hres (by decide)
  · have h := (c6_loop_behaviour rh300 40 none [["a"], ["b"]] (A4h - 210) (A4h - 210 - 40)
      Canvas.init).1 c' y f hres
    simp only [Option.map_some']
    rw [h.1, h.2]
    simp [tableRowsDrawn, Canvas.init]

/-! ### Canvas algebra -/

theorem emitOps_blocks (c : Canvas) (ops : List Op) : (emitOps c ops).blocks = c.blocks := rfl

theorem emitOps_pages (c : Canvas) (ops : List Op) : (emitOps c ops).pages = c.pages := rfl

theorem emitOps_cur (c : Canvas) (ops : List Op) : (emitOps c ops).cur = c.cur ++ ops := rfl

theorem pushBlock_blocks (c : Canvas) (k : BlockKind) :
    (pushBlock c k).blocks = c.blocks ++ [k] := rfl

theorem pushBlock_pages (c : Canvas) (k : BlockKind) : (pushBlock c k).pages = c.pages := rfl

theorem pushBlock_cur (c : Canvas) (k : BlockKind) : (pushBlock c k).cur = c.cur := rfl

theorem showPage_blocks (c : Canvas) : c.showPage.blocks = c.blocks := rfl

theorem showPage_pages (c : Canvas) : c.showPage.pages = c.pages ++ [c.cur] := rfl

theorem showPage_cur (c : Canvas) : c.showPage.cur = [] := rfl

theorem save_blocks (c : Canvas) : (Canvas.save c).blocks = c.blocks := rfl

theorem emitSection_blocks (c : Canvas) (k : BlockKind) (ops : List Op) :
    (emitSection c k ops).blocks = c.blocks ++ (if ops.isEmpty then [] else [k]) := by
  unfold emitSection
  split <;> simp_all

theorem emitSection_pages (c : Canvas) (k : BlockKind) (ops : List Op) :
    (emitSection c k ops).pages = c.pages := by
  unfold emitSection
  split <;> rfl

theorem emitSection_cur (c : Canvas) (k : BlockKind) (ops : List Op) :
    (emitSection c k ops).cur = c.cur ++ ops := by
  unfold emitSection
  split
  · rename_i h
    rw [List.isEmpty_iff.mp h, List.append_nil]
  · rfl

theorem drawNoteLines_nil (c : Canvas) (y : ℚ) : drawNoteLines c y [] = (c, y) := rfl

theorem drawNoteLines_cons (c : Canvas) (y : ℚ) (l : String) (L : List String) :
    drawNoteLines c y (l :: L) = drawNoteLines (emitOps c [Op.text 40 y l]) (y - 12) L := rfl

theorem drawNoteLines_blocks (L : List String) :
    ∀ (c : Canvas) (y : ℚ), ((drawNoteLines c y L).1).blocks = c.blocks := by
  induction L with
  | nil => intro c y; rfl
  | cons l L ih => intro c y; rw [drawNoteLines_cons, ih, emitOps_blocks]

theorem drawNoteLines_pages (L : List String) :
    ∀ (c : Canvas) (y : ℚ), ((drawNoteLines c y L).1).pages = c.pages := by
  induction L with
  | nil => intro c y; rfl
  | cons l L ih => intro c y; rw [drawNoteLines_cons, ih, emitOps_pages]

theorem drawNoteLines_cur (L : List String) :
    ∀ (c : Canvas) (y : ℚ), ∃ ext, ((drawNoteLines c y L).1).cur = c.cur ++ ext := by
  induction L with
  | nil => intro c y; exact ⟨[], by simp [drawNoteLines_nil]⟩
  | cons l L ih =>
    intro c y
    obtain ⟨ext, hext⟩ := ih (emitOps c [Op.text 40 y l]) (y - 12)
    exact ⟨[Op.text 40 y l] ++ ext, by rw [drawNoteLines_cons, hext, emitOps_cur, List.append_assoc]⟩

theorem check_page_break_blocks (s : Option GlobalSettings) (r y : ℚ) (c : Canvas) :
    ((check_page_break s r y c).1).blocks = c.blocks := by
  unfold check_page_break
  split <;> rfl

/-! ### Operations that draw no table chunk -/

theorem chunks_nil_iff (ops : List Op) :
    ((ops.map chunkRows).flatten = []) ↔ ∀ op ∈ ops, chunkRows op = [] := by
  simp [List.flatten_eq_nil_iff]

theorem tableRowsDrawn_emitOps_nil (c : Canvas) (ops : List Op)
    (h : ∀ op ∈ ops, chunkRows op = []) :
    tableRowsDrawn (emitOps c ops) = tableRowsDrawn c := by
  rw [tableRowsDrawn_emitOps, (chunks_nil_iff ops).mpr h, List.append_nil]

theorem chunkRows_logoOps (el : Option PDFTemplateElement) (settings : Option GlobalSettings)
    (d : Bool) : ∀ op ∈ logoOps el settings d, chunkRows op = [] := by
  intro op hop
  rcases el with _ | e
  · simp [logoOps] at hop
  · rcases settings with _ | s
    · rcases d with _ | _
      · simp [logoOps] at hop
      · simp [logoOps] at hop
        rcases hop with rfl | rfl <;> rfl
    · rcases hcl : s.company_logo with _ | img
      · rcases d with _ | _
        · simp [logoOps, hcl] at hop
        · simp [logoOps, hcl] at hop
          rcases hop with rfl | rfl <;> rfl
      · rcases hok : img.ok with _ | _
        · simp [logoOps, hcl, hok] at hop
        · simp [logoOps, hcl, hok] at hop
          subst hop; rfl

theorem chunkRows_companyInfoOps (el : Option PDFTemplateElement)
    (settings : Option GlobalSettings) (d : Bool) :
    ∀ op ∈ companyInfoOps el settings d, chunkRows op = [] := by
  intro op hop
  rcases el with _ | e
  · simp [companyInfoOps] at hop
  · simp [companyInfoOps] at hop
    rcases hop with rfl | ⟨p, hp, _, rfl⟩ <;> rfl

theorem chunkRows_metaOps (el : Option PDFTemplateElement) (a b s : String) :
    ∀ op ∈ metaOps el a b s, chunkRows op = [] := by
  intro op hop
  rcases el with _ | e
  · simp [metaOps] at hop
  · simp [metaOps] at hop
    rcases hop with rfl | rfl | rfl <;> rfl

theorem chunkRows_clientOps (el : Option PDFTemplateElement) (a b : String) :
    ∀ op ∈ clientOps el a b, chunkRows op = [] := by
  intro op hop
  rcases el with _ | e
  · simp [clientOps] at hop
  · simp [clientOps] at hop
    rcases hop with rfl | rfl <;> rfl

theorem chunkRows_timesOps (el : Option PDFTemplateElement) (a b : String) :
    ∀ op ∈ timesOps el a b, chunkRows op = [] := by
  intro op hop
  rcases el with _ | e
  · simp [timesOps] at hop
  · simp [timesOps] at hop
    rcases hop with rfl | rfl <;> rfl

theorem chunkRows_sigImageOps (sig : Option Image) (x y : ℚ) :
    ∀ op ∈ sigImageOps sig x y, chunkRows op = [] := by
  intro op hop
  rcases sig with _ | img
  · simp [sigImageOps] at hop
  · rcases hok : img.ok with _ | _
    · simp [sigImageOps, hok] at hop
    · simp [sigImageOps, hok] at hop
      subst hop; rfl

theorem chunkRows_frameworkMem (w h : ℚ) (s : Option GlobalSettings) :
    ∀ op ∈ draw_page_framework w h s, chunkRows op = [] :=
  (chunks_nil_iff _).mp (chunkRows_framework w h s)

theorem chunksF_sigImageOps (sig : Option Image) (x y : ℚ) :
    ((sigImageOps sig x y).map chunkRows).flatten = [] :=
  (chunks_nil_iff _).mpr (chunkRows_sigImageOps sig x y)

theorem chunksF_logoOps (el : Option PDFTemplateElement) (settings : Option GlobalSettings)
    (d : Bool) : ((logoOps el settings d).map chunkRows).flatten = [] :=
  (chunks_nil_iff _).mpr (chunkRows_logoOps el settings d)

theorem chunksF_companyInfoOps (el : Option PDFTemplateElement)
    (settings : Option GlobalSettings) (d : Bool) :
    ((companyInfoOps el settings d).map chunkRows).flatten = [] :=
  (chunks_nil_iff _).mpr (chunkRows_companyInfoOps el settings d)

theorem chunksF_metaOps (el : Option PDFTemplateElement) (a b s : String) :
    ((metaOps el a b s).map chunkRows).flatten = [] :=
  (chunks_nil_iff _).mpr (chunkRows_metaOps el a b s)

theorem chunksF_clientOps (el : Option PDFTemplateElement) (a b : String) :
    ((clientOps el a b).map chunkRows).flatten = [] :=
  (chunks_nil_iff _).mpr (chunkRows_clientOps el a b)

theorem chunksF_timesOps (el : Option PDFTemplateElement) (a b : String) :
    ((timesOps el a b).map chunkRows).flatten = [] :=
  (chunks_nil_iff _).mpr (chunkRows_timesOps el a b)

theorem tableRowsDrawn_pushBlock (c : Canvas) (k : BlockKind) :
    tableRowsDrawn (pushBlock c k) = tableRowsDrawn c := rfl

theorem tableRowsDrawn_emitSection (c : Canvas) (k : BlockKind) (ops : List Op)
    (h : (ops.map chunkRows).flatten = []) :
    tableRowsDrawn (emitSection c k ops) = tableRowsDrawn c := by
  unfold emitSection
  split
  · rfl
  · show tableRowsDrawn (emitOps (pushBlock c k) ops) = tableRowsDrawn c
    rw [tableRowsDrawn_emitOps, h, List.append_nil, tableRowsDrawn_pushBlock]

theorem check_page_break_drawn (s : Option GlobalSettings) (r y : ℚ) (c : Canvas) :
    tableRowsDrawn ((check_page_break s r y c).1) = tableRowsDrawn c := by
  unfold check_page_break
  split
  · show tableRowsDrawn (emitOps c.showPage (draw_page_framework A4w A4h s)) = tableRowsDrawn c
    rw [tableRowsDrawn_emitOps, chunkRows_framework, List.append_nil, tableRowsDrawn_showPage]
  · rfl

theorem drawNoteLines_drawn (L : List String) :
    ∀ (c : Canvas) (y : ℚ), tableRowsDrawn ((drawNoteLines c y L).1) = tableRowsDrawn c := by
  induction L with
  | nil => intro c y; rfl
  | cons l L ih =>
    intro c y
    rw [drawNoteLines_cons, ih, tableRowsDrawn_emitOps]
    simp [chunkRows]

/-! ### Flow-section lemmas -/

theorem techFlow_blocks (w : String → ℚ → List String) (s : Option GlobalSettings)
    (n a b : String) (ts cs : Option Image) (c : Canvas) (y : ℚ) :
    ((techFlow w s n a b ts cs c y).1).blocks = c.blocks ++ [BlockKind.techBlock] := by
  unfold techFlow
  simp only [emitOps_blocks, drawNoteLines_blocks, check_page_break_blocks, pushBlock_blocks]

theorem managerFlow_blocks (w : String → ℚ → List String) (s : Option GlobalSettings)
    (n a : String) (ms : Option Image) (c : Canvas) (y : ℚ) :
    ((managerFlow w s n a ms c y).1).blocks = c.blocks ++ [BlockKind.managerBlock] := by
  unfold managerFlow
  simp only [emitOps_blocks, drawNoteLines_blocks, check_page_break_blocks, pushBlock_blocks]

theorem adminFlow_blocks (w : String → ℚ → List String) (s : Option GlobalSettings)
    (n : String) (c : Canvas) (y : ℚ) :
    ((adminFlow w s n c y).1).blocks = c.blocks ++ [BlockKind.adminBlock] := by
  unfold adminFlow
  simp only [emitOps_blocks, drawNoteLines_blocks, check_page_break_blocks, pushBlock_blocks]

theorem techFlow_drawn (w : String → ℚ → List String) (s : Option GlobalSettings)
    (n a b : String) (ts cs : Option Image) (c : Canvas) (y : ℚ) :
    tableRowsDrawn ((techFlow w s n a b ts cs c y).1) = tableRowsDrawn c := by
  unfold techFlow
  simp only [tableRowsDrawn_emitOps, chunksF_sigImageOps, drawNoteLines_drawn,
    check_page_break_drawn, tableRowsDrawn_pushBlock, List.append_nil]
  simp [chunkRows]

theorem managerFlow_drawn (w : String → ℚ → List String) (s : Option GlobalSettings)
    (n a : String) (ms : Option Image) (c : Canvas) (y : ℚ) :
    tableRowsDrawn ((managerFlow w s n a ms c y).1) = tableRowsDrawn c := by
  unfold managerFlow
  simp only [tableRowsDrawn_emitOps, chunksF_sigImageOps, drawNoteLines_drawn,
    check_page_break_drawn, tableRowsDrawn_pushBlock, List.append_nil]
  simp [chunkRows]

theorem adminFlow_drawn (w : String → ℚ → List String) (s : Option GlobalSettings)
    (n : String) (c : Canvas) (y : ℚ) :
    tableRowsDrawn ((adminFlow w s n c y).1) = tableRowsDrawn c := by
  unfold adminFlow
  simp only [drawNoteLines_drawn, tableRowsDrawn_emitOps, check_page_break_drawn,
    tableRowsDrawn_pushBlock, List.append_nil]
  simp [chunkRows]

theorem drawTableGo_blocks (rowH : List String → ℚ) (posX : ℚ)
    (settings : Option GlobalSettings) :
    ∀ (fuel : Nat) (rows : List (List String)) (startY avail : ℚ) (c c' : Canvas)
      (y : ℚ) (f : Bool),
      drawTableGo rowH posX settings fuel rows startY avail c = some (c', y, f) →
      c'.blocks = c.blocks := by
  intro fuel
  induction fuel with
  | zero =>
    intro rows startY avail c c' y f h
    rw [drawTableGo] at h
    split at h
    · simp only [Option.some.injEq, Prod.mk.injEq] at h
      obtain ⟨rfl, -, -⟩ := h
      rfl
    · split at h
      · exact absurd h (by simp)
      · simp only [Option.some.injEq, Prod.mk.injEq] at h
        obtain ⟨rfl, -, -⟩ := h
        rfl
      · exact absurd h (by simp)
  | succ fuel ih =>
    intro rows startY avail c c' y f h
    rw [drawTableGo] at h
    split at h
    · simp only [Option.some.injEq, Prod.mk.injEq] at h
      obtain ⟨rfl, -, -⟩ := h
      rfl
    · split at h
      · exact absurd h (by simp)
      · simp only [Option.some.injEq, Prod.mk.injEq] at h
        obtain ⟨rfl, -, -⟩ := h
        rfl
      · rw [ih _ _ _ _ _ _ _ h, emitOps_blocks, showPage_blocks, emitOps_blocks]

theorem tableSection_blocks (rowH : List String → ℚ) (el : Option PDFTemplateElement)
    (data : List (List String)) (settings : Option GlobalSettings) (c : Canvas)
    (tr : Canvas × ℚ) (h : tableSection rowH el data settings c = some tr) :
    tr.1.blocks = c.blocks ++ (if el.isSome then [BlockKind.itemsTable] else []) := by
  rcases el with _ | e
  · simp only [tableSection, Option.some.injEq] at h
    subst h
    simp
  · simp only [tableSection] at h
    rcases hloop : drawTableLoop rowH e.pos_x settings data (A4h - e.pos_y)
        (A4h - e.pos_y - 40) { c with blocks := c.blocks ++ [BlockKind.itemsTable] }
      with _ | ⟨c₂, y₂, f₂⟩
    · rw [hloop] at h; exact absurd h (by simp)
    · rw [hloop] at h
      simp only [Option.some.injEq] at h
      subst h
      have := drawTableGo_blocks rowH e.pos_x settings data.length data (A4h - e.pos_y)
        (A4h - e.pos_y - 40) _ c₂ y₂ f₂ hloop
      simpa using this

/-! ### Block decomposition of the full render -/

theorem clientOps_isEmpty_ite (el : Option PDFTemplateElement) (a b : String) :
    (if (clientOps el a b).isEmpty then ([] : List BlockKind) else [.clientDetails]) =
      (if el.isSome then [BlockKind.clientDetails] else []) := by
  cases el <;> rfl

theorem headerCanvas_blocks (src : RenderSource) (store : TemplateStore)
    (settings : Option GlobalSettings) :
    (headerCanvas src store settings).blocks =
      (if (logoOps (lookupEl store "header_logo") settings src.isDummy).isEmpty then []
        else [BlockKind.headerLogo]) ++
      (if (companyInfoOps (lookupEl store "company_info") settings src.isDummy).isEmpty then []
        else [BlockKind.companyInfo]) ++
      (if (metaOps (lookupEl store "jobcard_meta") (val_jc_num src) (val_jc_date src)
          (val_jc_stat src)).isEmpty then [] else [BlockKind.jobcardMeta]) := by
  unfold headerCanvas
  simp [emitSection_blocks, emitOps_blocks, Canvas.init]

theorem flowPhase_blocks (w : String → ℚ → List String) (settings : Option GlobalSettings)
    (status : Status) (tn a b : String) (ts cs : Option Image) (mn ma : String)
    (ms : Option Image) (an : String) (c : Canvas) (y : ℚ) :
    (flowPhase w settings status tn a b ts cs mn ma ms an c y).blocks =
      c.blocks ++ [BlockKind.techBlock] ++
        (if status = .APPROVED ∨ status = .INVOICED then [BlockKind.managerBlock] else []) ++
        (if status = .INVOICED then [BlockKind.adminBlock] else []) := by
  unfold flowPhase
  cases status <;>
    simp [save_blocks, adminFlow_blocks, managerFlow_blocks, techFlow_blocks,
      List.append_assoc]

theorem generate_pdf_blocks (wrapFn : String → ℚ → List String) (rowH : List String → ℚ)
    (src : RenderSource) (store : TemplateStore) (settings : Option GlobalSettings)
    (res : RenderResult) (h : generate_pdf_buffer wrapFn rowH src store settings = some res) :
    res.blocks = headerBlocksOf src store settings ++ [BlockKind.techBlock] ++
      (if val_status src = .APPROVED ∨ val_status src = .INVOICED then [BlockKind.managerBlock]
        else []) ++
      (if val_status src = .INVOICED then [BlockKind.adminBlock] else []) := by
  simp only [generate_pdf_buffer] at h
  split at h
  · exact absurd h (by simp)
  · split at h
    · exact absurd h (by simp)
    · rename_i cName hres tr htab
      simp only [Option.some.injEq] at h
      subst h
      rw [flowPhase_blocks, tableSection_blocks _ _ _ _ _ _ htab]
      simp only [emitSection_blocks, headerCanvas_blocks]
      unfold headerBlocksOf
      simp only [clientOps_isEmpty_ite, List.append_assoc]

theorem headerBlocksOf_no_flow_kinds (src : RenderSource) (store : TemplateStore)
    (settings : Option GlobalSettings) :
    BlockKind.managerBlock ∉ headerBlocksOf src store settings ∧
    BlockKind.adminBlock ∉ headerBlocksOf src store settings ∧
    BlockKind.techBlock ∉ headerBlocksOf src store settings := by
  unfold headerBlocksOf
  refine ⟨?_, ?_, ?_⟩ <;>
    · intro hmem
      simp only [List.mem_append] at hmem
      rcases hmem with ((((h | h) | h) | h) | h) | h <;>
        · split at h <;> simp_all

/-! ### C8 — missing fixed names are not defaulted -/

/-- C8 counterexample: a store containing only `header_logo` is non-empty,
so the render's setup step leaves it unchanged; `items_table` has no
geometry after setup, and the items-table section (as well as every other
missing-name section) is not rendered — the only block drawn for a draft
record is the technician block, and no table row is emitted. -/
theorem c8_counterexample :
    setup_default_template_elements [⟨"header_logo", 40, 40, 120, 60, 0⟩] =
      [⟨"header_logo", 40, 40, 120, 60, 0⟩] ∧
    lookupEl (setup_default_template_elements [⟨"header_logo", 40, 40, 120, 60, 0⟩])
      "items_table" = none ∧
    (generate_pdf_buffer wrap1 (fun _ => 20) (.bound jcOne)
        [⟨"header_logo", 40, 40, 120, 60, 0⟩] none).map
      (fun res => (res.blocks, docTableRows res.doc)) =
      some ([BlockKind.techBlock], []) := by
  refine ⟨rfl, rfl, by decide⟩

theorem docTableRows_save_of_nil (c : Canvas) (h : tableRowsDrawn c = []) :
    docTableRows (Canvas.save c).doc = [] := by
  have hmem : ∀ op ∈ c.pages.flatten ++ c.cur, chunkRows op = [] :=
    (chunks_nil_iff _).mp h
  unfold Canvas.save docTableRows
  apply (chunks_nil_iff _).mpr
  intro op hop
  simp only [List.mem_flatten, List.mem_map] at hop
  obtain ⟨l, ⟨pr, hpr, rfl⟩, hop⟩ := hop
  rcases List.mem_append.mp hop with hop | hop
  · have hpg : pr.2 ∈ c.pages := by
      have := List.mem_map_of_mem Prod.snd hpr
      rwa [List.enum_map_snd] at this
    exact hmem op (List.mem_append_left _ (List.mem_flatten.mpr ⟨pr.2, hpg, hop⟩))
  · have : op = pageNumberOp (pr.1 + 1) c.pages.length := by simpa using hop
    subst this
    rfl

theorem flowPhase_docRows_nil (w : String → ℚ → List String) (settings : Option GlobalSettings)
    (status : Status) (tn a b : String) (ts cs : Option Image) (mn ma : String)
    (ms : Option Image) (an : String) (c : Canvas) (y : ℚ)
    (h : tableRowsDrawn c = []) :
    docTableRows (flowPhase w settings status tn a b ts cs mn ma ms an c y).doc = [] := by
  unfold flowPhase
  apply docTableRows_save_of_nil
  cases status <;> simp [adminFlow_drawn, managerFlow_drawn, techFlow_drawn, h]

theorem headerCanvas_drawn (src : RenderSource) (store : TemplateStore)
    (settings : Option GlobalSettings) :
    tableRowsDrawn (headerCanvas src store settings) = [] := by
  unfold headerCanvas
  rw [tableRowsDrawn_emitSection _ _ _ (chunksF_metaOps _ _ _ _),
    tableRowsDrawn_emitSection _ _ _ (chunksF_companyInfoOps _ _ _),
    tableRowsDrawn_emitSection _ _ _ (chunksF_logoOps _ _ _),
    tableRowsDrawn_emitOps, chunkRows_framework]
  rfl

/-- C8 amended: the render's setup step seeds the documented defaults only
when the template store is entirely empty.  For a non-empty store, a fixed
name missing from it (here `items_table`) is *not* given default geometry —
the snapshot still lacks it after setup — and its section is skipped: the
rendered output contains no items-table block and no table row. -/
theorem c8_missing_names_skipped (wrapFn : String → ℚ → List String)
    (rowH : List String → ℚ) (src : RenderSource) (store : TemplateStore)
    (settings : Option GlobalSettings) (hne : store ≠ [])
    (hmiss : lookupEl store "items_table" = none) :
    setup_default_template_elements store = store ∧
    ∀ res, generate_pdf_buffer wrapFn rowH src store settings = some res →
      BlockKind.itemsTable ∉ res.blocks ∧ docTableRows res.doc = [] := by
  have hsetup : setup_default_template_elements store = store := by
    have hfalse : store.isEmpty = false := by
      simpa [List.isEmpty_iff] using hne
    simp [setup_default_template_elements, hfalse]
  refine ⟨hsetup, fun res h => ⟨?_, ?_⟩⟩
  · intro hmem
    rw [generate_pdf_blocks _ _ _ _ _ _ h] at hmem
    simp only [List.mem_append] at hmem
    rcases hmem with ((hmem | hmem) | hmem) | hmem
    · unfold headerBlocksOf at hmem
      rw [hsetup] at hmem
      simp only [List.mem_append] at hmem
      rcases hmem with ((((hm | hm) | hm) | hm) | hm) | hm <;>
        (split at hm <;> simp_all)
    · simp at hmem
    · split at hmem <;> simp_all
    · split at hmem <;> simp_all
  · -- no table rows in the emitted document
    simp only [generate_pdf_buffer] at h
    split at h
    · exact absurd h (by simp)
    · rename_i cName hres
      split at h
      · exact absurd h (by simp)
      · rename_i tr htab
        simp only [Option.some.injEq] at h
        subst h
        apply flowPhase_docRows_nil
        rw [hsetup] at htab
        simp only [tableSection, hmiss, Option.some.injEq] at htab
        subst htab
        rw [tableRowsDrawn_emitSection _ _ _ (chunksF_timesOps _ _ _),
          tableRowsDrawn_emitSection _ _ _ (chunksF_clientOps _ _ _),
          headerCanvas_drawn]

/-- C8 witness: the non-empty single-element store of the counterexample
satisfies the amended statement's hypotheses. -/
theorem c8_missing_names_skipped_witness :
    setup_default_template_elements [⟨"header_logo", 40, 40, 120, 60, 0⟩] =
      [⟨"header_logo", 40, 40, 120, 60, 0⟩] := by
  exact (c8_missing_names_skipped wrap1 (fun _ => 20) (.bound jcOne)
    [⟨"header_logo", 40, 40, 120, 60, 0⟩] none (by decide) (by decide)).1

/-! ### C4 — conditional manager/admin sections -/

/-- C4: in bound mode the manager notes + manager signature block is drawn
if and only if the record's status is APPROVED or INVOICED, and the admin
notes block is drawn if and only if the status is INVOICED; DRAFT and
SUBMITTED records get neither. -/
theorem c4_conditional_sections (wrapFn : String → ℚ → List String)
    (rowH : List String → ℚ) (store : TemplateStore) (settings : Option GlobalSettings)
    (jc : Jobcard) (res : RenderResult)
    (h : generate_pdf_buffer wrapFn rowH (.bound jc) store settings = some res) :
    (BlockKind.managerBlock ∈ res.blocks ↔
      (jc.status = .APPROVED ∨ jc.status = .INVOICED)) ∧
    (BlockKind.adminBlock ∈ res.blocks ↔ jc.status = .INVOICED) := by
  rw [generate_pdf_blocks _ _ _ _ _ _ h]
  have hH := headerBlocksOf_no_flow_kinds (.bound jc) store settings
  have hstat : val_status (.bound jc) = jc.status := rfl
  rw [hstat]
  cases hs : jc.status <;>
    simp [hH.1, hH.2.1, List.mem_append]

/-- C4 witness: an APPROVED record rendered against the seeded defaults
contains the manager block and not the admin block. -/
theorem c4_conditional_sections_witness :
    (generate_pdf_buffer wrap1 (fun _ => 20)
        (.bound { jcOne with status := .APPROVED }) [] none).map
      (fun res => (decide (BlockKind.managerBlock ∈ res.blocks),
        decide (BlockKind.adminBlock ∈ res.blocks))) = some (true, false) := by
  rcases hres : generate_pdf_buffer wrap1 (fun _ => 20)
      (.bound { jcOne with status := .APPROVED }) [] none with _ | res
  · exact absurd hres (by decide)
  · have h := c4_conditional_sections wrap1 (fun _ => 20) [] none
      { jcOne with status := .APPROVED } res hres
    have h1 : BlockKind.managerBlock ∈ res.blocks := h.1.mpr (Or.inl rfl)
    have h2 : BlockKind.adminBlock ∉ res.blocks := fun hmem => by
      have := h.2.mp hmem
      simp at this
    simp [h1, h2]

/-! ### C3 — pagination of an overflowing items table -/

/-- C3: the drawing loop paginates the overflowing table correctly — the
two-row table (header + one item, 300pt per row) does not fit the 591.9pt
below the default table top, is split at a row boundary, and both rows are
drawn, the remainder on a second page — but `NumberedCanvas.save` only
emits the page states saved by `showPage` and discards the in-progress
final page: the emitted document has exactly one page, and the second
chunk (the item row) appears nowhere in it.  The claimed page count > 1
and every-row-exactly-once fail on the emitted document. -/
theorem c3_last_page_dropped :
    (val_table_data (.bound jcOne)).length = 2 ∧
    ¬tableHeight rh300 (val_table_data (.bound jcOne)) ≤ (A4h - 210) - 40 ∧
    (drawTableLoop rh300 40 none (val_table_data (.bound jcOne)) (A4h - 210)
        ((A4h - 210) - 40) Canvas.init).map
      (fun out => (tableRowsDrawn out.1, out.1.pages.length + 1)) =
      some ([["Description", "Parts Used", "Qty", "Person Helped"],
        ["Task", "Parts", "1", "Helper"]], 2) ∧
    (generate_pdf_buffer wrap1 rh300 (.bound jcOne) storeItemsOnly none).map
      (fun res => (res.doc.length, docTableRows res.doc)) =
      some (1, [["Description", "Parts Used", "Qty", "Person Helped"]]) := by
  refine ⟨by decide, by decide, by decide, by decide⟩

/-! ### C9 — graceful degradation on signature decode failure -/

theorem sigImageOps_bad {img : Image} (hbad : img.ok = false) (x y : ℚ) :
    sigImageOps (some img) x y = sigImageOps none x y := by
  simp [sigImageOps, hbad]

theorem techFlow_bad_tech {img : Image} (hbad : img.ok = false) :
    ∀ (w : String → ℚ → List String) (s : Option GlobalSettings) (n a b : String)
      (cs : Option Image) (c : Canvas) (y : ℚ),
      techFlow w s n a b (some img) cs c y = techFlow w s n a b none cs c y := by
  intro w s n a b cs c y
  simp only [techFlow, sigImageOps_bad hbad]

theorem techFlow_bad_client {img : Image} (hbad : img.ok = false) :
    ∀ (w : String → ℚ → List String) (s : Option GlobalSettings) (n a b : String)
      (ts : Option Image) (c : Canvas) (y : ℚ),
      techFlow w s n a b ts (some img) c y = techFlow w s n a b ts none c y := by
  intro w s n a b ts c y
  simp only [techFlow, sigImageOps_bad hbad]

theorem managerFlow_bad_sig {img : Image} (hbad : img.ok = false) :
    ∀ (w : String → ℚ → List String) (s : Option GlobalSettings) (n a : String)
      (c : Canvas) (y : ℚ),
      managerFlow w s n a (some img) c y = managerFlow w s n a none c y := by
  intro w s n a c y
  simp only [managerFlow, sigImageOps_bad hbad]

theorem flowPhase_bad_tech {img : Image} (hbad : img.ok = false) :
    ∀ (w : String → ℚ → List String) (s : Option GlobalSettings) (st : Status)
      (tn a b : String) (cs : Option Image) (mn ma : String) (ms : Option Image)
      (an : String) (c : Canvas) (y : ℚ),
      flowPhase w s st tn a b (some img) cs mn ma ms an c y =
        flowPhase w s st tn a b none cs mn ma ms an c y := by
  intro w s st tn a b cs mn ma ms an c y
  simp only [flowPhase, techFlow_bad_tech hbad]

theorem flowPhase_bad_client {img : Image} (hbad : img.ok = false) :
    ∀ (w : String → ℚ → List String) (s : Option GlobalSettings) (st : Status)
      (tn a b : String) (ts : Option Image) (mn ma : String) (ms : Option Image)
      (an : String) (c : Canvas) (y : ℚ),
      flowPhase w s st tn a b ts (some img) mn ma ms an c y =
        flowPhase w s st tn a b ts none mn ma ms an c y := by
  intro w s st tn a b ts mn ma ms an c y
  simp only [flowPhase, techFlow_bad_client hbad]

theorem flowPhase_bad_manager {img : Image} (hbad : img.ok = false) :
    ∀ (w : String → ℚ → List String) (s : Option GlobalSettings) (st : Status)
      (tn a b : String) (ts cs : Option Image) (mn ma : String)
      (an : String) (c : Canvas) (y : ℚ),
      flowPhase w s st tn a b ts cs mn ma (some img) an c y =
        flowPhase w s st tn a b ts cs mn ma none an c y := by
  intro w s st tn a b ts cs mn ma an c y
  simp only [flowPhase, managerFlow_bad_sig hbad]

theorem headerCanvas_congr (src₁ src₂ : RenderSource) (store : TemplateStore)
    (settings : Option GlobalSettings) (h1 : src₁.isDummy = src₂.isDummy)
    (h2 : val_jc_num src₁ = val_jc_num src₂) (h3 : val_jc_date src₁ = val_jc_date src₂)
    (h4 : val_jc_stat src₁ = val_jc_stat src₂) :
    headerCanvas src₁ store settings = headerCanvas src₂ store settings := by
  unfold headerCanvas
  rw [h1, h2, h3, h4]

/-- The undecodable-signature invariance of a full render: for each of the
three signature roles, a record carrying an undecodable signature asset
renders to exactly the same output as the same record with that signature
absent — the asset failure never aborts rendering and changes nothing. -/
theorem generate_bad_sig_eq (wrapFn : String → ℚ → List String)
    (rowH : List String → ℚ) (store : TemplateStore) (settings : Option GlobalSettings)
    (jc : Jobcard) (img : Image) (hbad : img.ok = false) :
    (generate_pdf_buffer wrapFn rowH (.bound { jc with tech_signature := some img })
        store settings =
      generate_pdf_buffer wrapFn rowH (.bound { jc with tech_signature := none })
        store settings) ∧
    (generate_pdf_buffer wrapFn rowH (.bound { jc with client_signature := some img })
        store settings =
      generate_pdf_buffer wrapFn rowH (.bound { jc with client_signature := none })
        store settings) ∧
    (generate_pdf_buffer wrapFn rowH (.bound { jc with manager_signature := some img })
        store settings =
      generate_pdf_buffer wrapFn rowH (.bound { jc with manager_signature := none })
        store settings) := by
  refine ⟨?_, ?_, ?_⟩
  · simp only [generate_pdf_buffer, val_tech_sig, val_tech_notes, val_sig_tech_name,
      val_sig_client_name, val_client_sig, val_manager_notes, val_manager_name,
      val_manager_sig, val_admin_notes, val_status, val_jc_num, val_jc_date, val_jc_stat,
      val_start, val_stop, val_table_data, val_tech_display, resolve_client_name,
      RenderSource.isDummy, flowPhase_bad_tech hbad]
    rw [headerCanvas_congr (.bound { jc with tech_signature := some img })
      (.bound { jc with tech_signature := none })
      (setup_default_template_elements store) settings rfl rfl rfl rfl]
  · simp only [generate_pdf_buffer, val_tech_sig, val_tech_notes, val_sig_tech_name,
      val_sig_client_name, val_client_sig, val_manager_notes, val_manager_name,
      val_manager_sig, val_admin_notes, val_status, val_jc_num, val_jc_date, val_jc_stat,
      val_start, val_stop, val_table_data, val_tech_display, resolve_client_name,
      RenderSource.isDummy, flowPhase_bad_client hbad]
    rw [headerCanvas_congr (.bound { jc with client_signature := some img })
      (.bound { jc with client_signature := none })
      (setup_default_template_elements store) settings rfl rfl rfl rfl]
  · simp only [generate_pdf_buffer, val_tech_sig, val_tech_notes, val_sig_tech_name,
      val_sig_client_name, val_client_sig, val_manager_notes, val_manager_name,
      val_manager_sig, val_admin_notes, val_status, val_jc_num, val_jc_date, val_jc_stat,
      val_start, val_stop, val_table_data, val_tech_display, resolve_client_name,
      RenderSource.isDummy, flowPhase_bad_manager hbad]
    rw [headerCanvas_congr (.bound { jc with manager_signature := some img })
      (.bound { jc with manager_signature := none })
      (setup_default_template_elements store) settings rfl rfl rfl rfl]

/-- The signature placeholder boxes and name lines are drawn unconditionally
by the signature sections, whatever the signature images are. -/
theorem sig_placeholder_always_drawn :
    (∀ (w : String → ℚ → List String) (s : Option GlobalSettings) (n a b : String)
      (ts cs : Option Image) (c : Canvas) (y : ℚ),
      Op.rect 40 ((techFlow w s n a b ts cs c y).2 + 20) 150 50 ∈
          ((techFlow w s n a b ts cs c y).1).cur ∧
        Op.text 40 ((techFlow w s n a b ts cs c y).2 + 20 + 50) ("Tech Sign: " ++ a) ∈
          ((techFlow w s n a b ts cs c y).1).cur ∧
        Op.rect 250 ((techFlow w s n a b ts cs c y).2 + 20) 150 50 ∈
          ((techFlow w s n a b ts cs c y).1).cur) ∧
    (∀ (w : String → ℚ → List String) (s : Option GlobalSettings) (n a : String)
      (ms : Option Image) (c : Canvas) (y : ℚ),
      Op.rect 40 ((managerFlow w s n a ms c y).2 + 20) 150 50 ∈
          ((managerFlow w s n a ms c y).1).cur ∧
        Op.text 40 ((managerFlow w s n a ms c y).2 + 20 + 50) ("Manager Sign: " ++ a) ∈
          ((managerFlow w s n a ms c y).1).cur) := by
  constructor
  · intro w s n a b ts cs c y
    refine ⟨?_, ?_, ?_⟩ <;>
      simp [techFlow, emitOps_cur, List.mem_append]
  · intro w s n a ms c y
    constructor <;>
      simp [managerFlow, emitOps_cur, List.mem_append]

/-- C9: at the failing input — a record whose technician signature fails to
decode, all of whose content fits the first page — rendering does not abort
and the bad asset is harmless in itself (the output is exactly the
signature-absent render's, and the technician section with its name line
and placeholder boxes was composed), but the returned document is *empty*:
no explicit page break occurred, so `NumberedCanvas.save` has no saved page
state to replay, and the base save's flush dispatches to the overridden
`showPage`, which records the state after the replay loop and never emits
it.  The promised complete non-empty document does not materialise. -/
theorem c9_sig_empty_doc :
    (generate_pdf_buffer wrap1 (fun _ => 20)
        (.bound { jcOne with tech_signature := some ⟨"sig.png", 10, 10, false⟩ }) [] none =
      generate_pdf_buffer wrap1 (fun _ => 20)
        (.bound { jcOne with tech_signature := none }) [] none) ∧
    (generate_pdf_buffer wrap1 (fun _ => 20)
        (.bound { jcOne with tech_signature := some ⟨"sig.png", 10, 10, false⟩ }) [] none).map
      (fun res => (res.blocks.contains BlockKind.techBlock, res.doc)) =
      some (true, []) := by
  exact ⟨by decide, by decide⟩

/-! ### C5 — mode parity: the simulation relation -/

theorem CanvasR_refl (c : Canvas) : CanvasR c c := ⟨rfl, rfl, Iff.rfl⟩

theorem CanvasR_emitOps {c₁ c₂ : Canvas} (h : CanvasR c₁ c₂) (ops₁ ops₂ : List Op)
    (hops : ops₁ = [] ↔ ops₂ = []) : CanvasR (emitOps c₁ ops₁) (emitOps c₂ ops₂) := by
  obtain ⟨hp, hb, hc⟩ := h
  exact ⟨hp, hb, by simp [emitOps, hc, hops]⟩

theorem CanvasR_emitOps_eq {c₁ c₂ : Canvas} (h : CanvasR c₁ c₂) (ops : List Op) :
    CanvasR (emitOps c₁ ops) (emitOps c₂ ops) :=
  CanvasR_emitOps h ops ops Iff.rfl

theorem CanvasR_pushBlock {c₁ c₂ : Canvas} (h : CanvasR c₁ c₂) (k : BlockKind) :
    CanvasR (pushBlock c₁ k) (pushBlock c₂ k) := by
  obtain ⟨hp, hb, hc⟩ := h
  exact ⟨hp, by simp [pushBlock, hb], hc⟩

theorem CanvasR_showPage {c₁ c₂ : Canvas} (h : CanvasR c₁ c₂) :
    CanvasR c₁.showPage c₂.showPage := by
  obtain ⟨hp, hb, hc⟩ := h
  exact ⟨by simp [Canvas.showPage, hp], hb, by simp [Canvas.showPage]⟩

theorem CanvasR_emitSection {c₁ c₂ : Canvas} (h : CanvasR c₁ c₂) (k : BlockKind)
    (ops₁ ops₂ : List Op) (hops : ops₁.isEmpty = ops₂.isEmpty) :
    CanvasR (emitSection c₁ k ops₁) (emitSection c₂ k ops₂) := by
  obtain ⟨hp, hb, hc⟩ := h
  by_cases h1 : ops₁.isEmpty = true
  · have h2 : ops₂.isEmpty = true := hops ▸ h1
    simp only [emitSection, h1, h2, if_true]
    exact ⟨hp, hb, hc⟩
  · have h2 : ¬ops₂.isEmpty = true := hops ▸ h1
    simp only [emitSection, h1, h2, if_false]
    have hne₁ : ops₁ ≠ [] := fun hcon => h1 (by simp [hcon])
    have hne₂ : ops₂ ≠ [] := fun hcon => h2 (by simp [hcon])
    exact ⟨hp, by simp [hb], by simp [hne₁, hne₂]⟩

theorem check_page_break_congr (s : Option GlobalSettings) (r y : ℚ) {c₁ c₂ : Canvas}
    (h : CanvasR c₁ c₂) :
    CanvasR (check_page_break s r y c₁).1 (check_page_break s r y c₂).1 ∧
      (check_page_break s r y c₁).2 = (check_page_break s r y c₂).2 := by
  unfold check_page_break
  by_cases hy : y - r < 40
  · simp only [if_pos hy]
    exact ⟨CanvasR_emitOps_eq (CanvasR_showPage h) _, trivial⟩
  · simp only [if_neg hy]
    exact ⟨h, trivial⟩

theorem drawNoteLines_congr (L : List String) :
    ∀ {c₁ c₂ : Canvas}, CanvasR c₁ c₂ → ∀ y : ℚ,
      CanvasR (drawNoteLines c₁ y L).1 (drawNoteLines c₂ y L).1 ∧
        (drawNoteLines c₁ y L).2 = (drawNoteLines c₂ y L).2 := by
  induction L with
  | nil => intro c₁ c₂ h y; exact ⟨h, rfl⟩
  | cons l L ih =>
    intro c₁ c₂ h y
    rw [drawNoteLines_cons, drawNoteLines_cons]
    exact ih (CanvasR_emitOps_eq h _) _

theorem techFlow_congr (w : String → ℚ → List String) (s : Option GlobalSettings)
    (n a b : String) (ts cs : Option Image) {c₁ c₂ : Canvas} (h : CanvasR c₁ c₂) (y : ℚ) :
    CanvasR (techFlow w s n a b ts cs c₁ y).1 (techFlow w s n a b ts cs c₂ y).1 ∧
      (techFlow w s n a b ts cs c₁ y).2 = (techFlow w s n a b ts cs c₂ y).2 := by
  simp only [techFlow]
  have h1 := check_page_break_congr s 120 y h
  rw [h1.2]
  have h2 := drawNoteLines_congr (w n (A4w - 80))
    (CanvasR_emitOps_eq (CanvasR_pushBlock h1.1 .techBlock)
      [Op.text 40 (check_page_break s 120 y c₂).2 "Technician Notes:"])
    ((check_page_break s 120 y c₂).2 - 15)
  rw [h2.2]
  have h3 := check_page_break_congr s 80
    ((drawNoteLines (emitOps (pushBlock (check_page_break s 120 y c₂).1 .techBlock)
      [Op.text 40 (check_page_break s 120 y c₂).2 "Technician Notes:"])
      ((check_page_break s 120 y c₂).2 - 15) (w n (A4w - 80))).2 - 20) h2.1
  rw [h3.2]
  exact ⟨CanvasR_emitOps_eq (CanvasR_emitOps_eq (CanvasR_emitOps_eq
    (CanvasR_emitOps_eq h3.1 _) _) _) _, rfl⟩

theorem managerFlow_congr (w : String → ℚ → List String) (s : Option GlobalSettings)
    (n a : String) (ms : Option Image) {c₁ c₂ : Canvas} (h : CanvasR c₁ c₂) (y : ℚ) :
    CanvasR (managerFlow w s n a ms c₁ y).1 (managerFlow w s n a ms c₂ y).1 ∧
      (managerFlow w s n a ms c₁ y).2 = (managerFlow w s n a ms c₂ y).2 := by
  simp only [managerFlow]
  have h1 := check_page_break_congr s 100 y h
  rw [h1.2]
  have h2 := drawNoteLines_congr (w n (A4w - 80))
    (CanvasR_emitOps_eq (CanvasR_pushBlock h1.1 .managerBlock)
      [Op.text 40 (check_page_break s 100 y c₂).2 "Manager Notes:"])
    ((check_page_break s 100 y c₂).2 - 15)
  rw [h2.2]
  have h3 := check_page_break_congr s 80
    ((drawNoteLines (emitOps (pushBlock (check_page_break s 100 y c₂).1 .managerBlock)
      [Op.text 40 (check_page_break s 100 y c₂).2 "Manager Notes:"])
      ((check_page_break s 100 y c₂).2 - 15) (w n (A4w - 80))).2 - 20) h2.1
  rw [h3.2]
  exact ⟨CanvasR_emitOps_eq (CanvasR_emitOps_eq (CanvasR_emitOps_eq h3.1 _) _) _, rfl⟩

theorem adminFlow_congr (w : String → ℚ → List String) (s : Option GlobalSettings)
    (n : String) {c₁ c₂ : Canvas} (h : CanvasR c₁ c₂) (y : ℚ) :
    CanvasR (adminFlow w s n c₁ y).1 (adminFlow w s n c₂ y).1 ∧
      (adminFlow w s n c₁ y).2 = (adminFlow w s n c₂ y).2 := by
  simp only [adminFlow]
  have h1 := check_page_break_congr s 50 y h
  rw [h1.2]
  exact drawNoteLines_congr (w n (A4w - 80))
    (CanvasR_emitOps_eq (CanvasR_pushBlock h1.1 .adminBlock)
      [Op.text 40 (check_page_break s 50 y c₂).2 "Admin Notes:"]) _

theorem save_congr {c₁ c₂ : Canvas} (h : CanvasR c₁ c₂) :
    (Canvas.save c₁).blocks = (Canvas.save c₂).blocks ∧
      (Canvas.save c₁).doc.length = (Canvas.save c₂).doc.length := by
  obtain ⟨hp, hb, _⟩ := h
  unfold Canvas.save
  exact ⟨hb, by simp [List.length_map, List.enum_length, hp]⟩

theorem flowPhase_congr (w : String → ℚ → List String) (settings : Option GlobalSettings)
    (status : Status) (tn a b : String) (ts cs : Option Image) (mn ma : String)
    (ms : Option Image) (an : String) {c₁ c₂ : Canvas} (h : CanvasR c₁ c₂) (y : ℚ) :
    (flowPhase w settings status tn a b ts cs mn ma ms an c₁ y).blocks =
      (flowPhase w settings status tn a b ts cs mn ma ms an c₂ y).blocks ∧
    (flowPhase w settings status tn a b ts cs mn ma ms an c₁ y).doc.length =
      (flowPhase w settings status tn a b ts cs mn ma ms an c₂ y).doc.length := by
  simp only [flowPhase]
  have h1 := techFlow_congr w settings tn a b ts cs h y
  rw [h1.2]
  by_cases hm : status = .APPROVED ∨ status = .INVOICED
  · by_cases ha : status = .INVOICED
    · simp only [if_pos hm, if_pos ha]
      have h2 := managerFlow_congr w settings mn ma ms h1.1
        (techFlow w settings tn a b ts cs c₂ y).2
      rw [h2.2]
      have h3 := adminFlow_congr w settings an h2.1
        (managerFlow w settings mn ma ms (techFlow w settings tn a b ts cs c₂ y).1
          (techFlow w settings tn a b ts cs c₂ y).2).2
      exact save_congr h3.1
    · simp only [if_pos hm, if_neg ha]
      have h2 := managerFlow_congr w settings mn ma ms h1.1
        (techFlow w settings tn a b ts cs c₂ y).2
      exact save_congr h2.1
  · have ha : ¬status = .INVOICED := fun hcon => hm (Or.inr hcon)
    simp only [if_neg hm, if_neg ha]
    exact save_congr h1.1

theorem tableHeight_map {rowH : List String → ℚ} {rows₁ rows₂ : List (List String)}
    (h : rows₁.map rowH = rows₂.map rowH) :
    tableHeight rowH rows₁ = tableHeight rowH rows₂ := by
  simp only [tableHeight, h]

theorem fitCount_map (rowH : List String → ℚ) :
    ∀ (rows₁ rows₂ : List (List String)), rows₁.map rowH = rows₂.map rowH →
      ∀ avail, fitCount rowH rows₁ avail = fitCount rowH rows₂ avail := by
  intro rows₁
  induction rows₁ with
  | nil =>
    intro rows₂ h avail
    cases rows₂ with
    | nil => rfl
    | cons r rs => simp at h
  | cons r rs ih =>
    intro rows₂ h avail
    cases rows₂ with
    | nil => simp at h
    | cons r₂ rs₂ =>
      simp only [List.map_cons, List.cons.injEq] at h
      obtain ⟨he, ht⟩ := h
      simp only [fitCount, he]
      by_cases hle : rowH r₂ ≤ avail
      · simp [hle, ih rs₂ ht]
      · simp [hle]

theorem drawTableGo_congr (rowH : List String → ℚ) (posX : ℚ)
    (settings : Option GlobalSettings) :
    ∀ (fuel : Nat) (rows₁ rows₂ : List (List String)),
      rows₁.map rowH = rows₂.map rowH →
      ∀ (sY av : ℚ) {c₁ c₂ : Canvas}, CanvasR c₁ c₂ →
      optRel (fun o₁ o₂ => CanvasR o₁.1 o₂.1 ∧ o₁.2.1 = o₂.2.1 ∧ o₁.2.2 = o₂.2.2)
        (drawTableGo rowH posX settings fuel rows₁ sY av c₁)
        (drawTableGo rowH posX settings fuel rows₂ sY av c₂) := by
  intro fuel
  induction fuel with
  | zero =>
    intro rows₁ rows₂ hmap sY av c₁ c₂ hR
    rw [drawTableGo, drawTableGo]
    have hh := tableHeight_map hmap
    have hfit := fitCount_map rowH rows₁ rows₂ hmap av
    have hlen : rows₁.length = rows₂.length := by simpa using congrArg List.length hmap
    by_cases hle : tableHeight rowH rows₁ ≤ av
    · rw [if_pos hle, if_pos (hh ▸ hle)]
      exact ⟨CanvasR_emitOps hR _ _ (by simp), by rw [hh], rfl⟩
    · rw [if_neg hle, if_neg (hh ▸ hle)]
      by_cases hn0 : fitCount rowH rows₁ av = 0
      · have hs₁ : tableSplit rowH rows₁ av = [] := by
          simp only [tableSplit, if_pos hn0]
        have hs₂ : tableSplit rowH rows₂ av = [] := by
          simp only [tableSplit, if_pos (hfit ▸ hn0)]
        rw [hs₁, hs₂]
        trivial
      · by_cases hnl : fitCount rowH rows₁ av = rows₁.length
        · have hs₁ : tableSplit rowH rows₁ av = [rows₁] := by
            simp only [tableSplit, if_neg hn0, if_pos hnl]
          have hnl₂ : fitCount rowH rows₂ av = rows₂.length := by
            rw [← hfit, ← hlen]; exact hnl
          have hs₂ : tableSplit rowH rows₂ av = [rows₂] := by
            simp only [tableSplit, if_neg (hfit ▸ hn0), if_pos hnl₂]
          rw [hs₁, hs₂]
          exact ⟨CanvasR_emitOps hR _ _ (by simp), by rw [hh], rfl⟩
        · have hn0' : ¬fitCount rowH rows₂ av = 0 := by rw [← hfit]; exact hn0
          have hnl' : ¬fitCount rowH rows₂ av = rows₂.length := by
            rw [← hfit, ← hlen]; exact hnl
          have hs₁ : tableSplit rowH rows₁ av =
              [rows₁.take (fitCount rowH rows₁ av), rows₁.drop (fitCount rowH rows₁ av)] := by
            simp only [tableSplit, if_neg hn0, if_neg hnl]
          have hs₂ : tableSplit rowH rows₂ av =
              [rows₂.take (fitCount rowH rows₁ av), rows₂.drop (fitCount rowH rows₁ av)] := by
            simp only [tableSplit, if_neg hn0', if_neg hnl']
            rw [hfit]
          rw [hs₁, hs₂]
          trivial
  | succ fuel ih =>
    intro rows₁ rows₂ hmap sY av c₁ c₂ hR
    rw [drawTableGo, drawTableGo]
    have hh := tableHeight_map hmap
    have hfit := fitCount_map rowH rows₁ rows₂ hmap av
    have hlen : rows₁.length = rows₂.length := by simpa using congrArg List.length hmap
    by_cases hle : tableHeight rowH rows₁ ≤ av
    · rw [if_pos hle, if_pos (hh ▸ hle)]
      exact ⟨CanvasR_emitOps hR _ _ (by simp), by rw [hh], rfl⟩
    · rw [if_neg hle, if_neg (hh ▸ hle)]
      by_cases hn0 : fitCount rowH rows₁ av = 0
      · have hs₁ : tableSplit rowH rows₁ av = [] := by
          simp only [tableSplit, if_pos hn0]
        have hs₂ : tableSplit rowH rows₂ av = [] := by
          simp only [tableSplit, if_pos (hfit ▸ hn0)]
        rw [hs₁, hs₂]
        trivial
      · by_cases hnl : fitCount rowH rows₁ av = rows₁.length
        · have hs₁ : tableSplit rowH rows₁ av = [rows₁] := by
            simp only [tableSplit, if_neg hn0, if_pos hnl]
          have hnl₂ : fitCount rowH rows₂ av = rows₂.length := by
            rw [← hfit, ← hlen]; exact hnl
          have hs₂ : tableSplit rowH rows₂ av = [rows₂] := by
            simp only [tableSplit, if_neg (hfit ▸ hn0), if_pos hnl₂]
          rw [hs₁, hs₂]
          exact ⟨CanvasR_emitOps hR _ _ (by simp), by rw [hh], rfl⟩
        · have hn0' : ¬fitCount rowH rows₂ av = 0 := by rw [← hfit]; exact hn0
          have hnl' : ¬fitCount rowH rows₂ av = rows₂.length := by
            rw [← hfit, ← hlen]; exact hnl
          have hs₁ : tableSplit rowH rows₁ av =
              [rows₁.take (fitCount rowH rows₁ av), rows₁.drop (fitCount rowH rows₁ av)] := by
            simp only [tableSplit, if_neg hn0, if_neg hnl]
          have hs₂ : tableSplit rowH rows₂ av =
              [rows₂.take (fitCount rowH rows₁ av), rows₂.drop (fitCount rowH rows₁ av)] := by
            simp only [tableSplit, if_neg hn0', if_neg hnl']
            rw [hfit]
          rw [hs₁, hs₂]
          simp only
          apply ih
          · rw [List.map_drop, List.map_drop, hmap]
          · exact CanvasR_emitOps_eq (CanvasR_showPage (CanvasR_emitOps hR _ _ (by simp))) _

theorem tableSection_congr (rowH : List String → ℚ) (el : Option PDFTemplateElement)
    (data₁ data₂ : List (List String)) (settings : Option GlobalSettings) {c₁ c₂ : Canvas}
    (hmap : data₁.map rowH = data₂.map rowH) (h : CanvasR c₁ c₂) :
    optRel (fun t₁ t₂ => CanvasR t₁.1 t₂.1 ∧ t₁.2 = t₂.2)
      (tableSection rowH el data₁ settings c₁) (tableSection rowH el data₂ settings c₂) := by
  rcases el with _ | e
  · exact ⟨h, rfl⟩
  · simp only [tableSection, drawTableLoop]
    have hlen : data₁.length = data₂.length := by simpa using congrArg List.length hmap
    have hrel : CanvasR { c₁ with blocks := c₁.blocks ++ [BlockKind.itemsTable] }
        { c₂ with blocks := c₂.blocks ++ [BlockKind.itemsTable] } := by
      obtain ⟨hp, hb, hc⟩ := h
      exact ⟨hp, by simp [hb], hc⟩
    have hgo := drawTableGo_congr rowH e.pos_x settings data₁.length data₁ data₂ hmap
      (A4h - e.pos_y) (A4h - e.pos_y - 40) hrel
    rw [← hlen]
    rcases hg₁ : drawTableGo rowH e.pos_x settings data₁.length data₁ (A4h - e.pos_y)
        (A4h - e.pos_y - 40) { c₁ with blocks := c₁.blocks ++ [BlockKind.itemsTable] }
      with _ | ⟨cc₁, yy₁, ff₁⟩ <;>
      rcases hg₂ : drawTableGo rowH e.pos_x settings data₁.length data₂ (A4h - e.pos_y)
          (A4h - e.pos_y - 40) { c₂ with blocks := c₂.blocks ++ [BlockKind.itemsTable] }
        with _ | ⟨cc₂, yy₂, ff₂⟩ <;>
      rw [hg₁, hg₂] at hgo <;>
      simp only [optRel] at hgo ⊢
    exact ⟨hgo.1, hgo.2.1⟩

theorem logoOps_mode_eq (el : Option PDFTemplateElement) {s : GlobalSettings} {l : Image}
    (hsl : s.company_logo = some l) (d : Bool) :
    logoOps el (some s) d = logoOps el (some s) false := by
  rcases el with _ | e
  · rfl
  · simp [logoOps, hsl]

theorem companyInfoOps_isEmpty (el : Option PDFTemplateElement)
    (s₁ s₂ : Option GlobalSettings) (d₁ d₂ : Bool) :
    (companyInfoOps el s₁ d₁).isEmpty = (companyInfoOps el s₂ d₂).isEmpty := by
  rcases el with _ | e <;> simp [companyInfoOps]

theorem metaOps_isEmpty (el : Option PDFTemplateElement) (a₁ b₁ s₁ a₂ b₂ s₂ : String) :
    (metaOps el a₁ b₁ s₁).isEmpty = (metaOps el a₂ b₂ s₂).isEmpty := by
  rcases el with _ | e <;> simp [metaOps]

theorem clientOps_isEmpty (el : Option PDFTemplateElement) (a₁ b₁ a₂ b₂ : String) :
    (clientOps el a₁ b₁).isEmpty = (clientOps el a₂ b₂).isEmpty := by
  rcases el with _ | e <;> simp [clientOps]

theorem timesOps_isEmpty (el : Option PDFTemplateElement) (a₁ b₁ a₂ b₂ : String) :
    (timesOps el a₁ b₁).isEmpty = (timesOps el a₂ b₂).isEmpty := by
  rcases el with _ | e <;> simp [timesOps]

theorem headerCanvas_R (jc : Jobcard) (store : TemplateStore) {s : GlobalSettings} {l : Image}
    (hsl : s.company_logo = some l) :
    CanvasR (headerCanvas (.bound jc) store (some s)) (headerCanvas .dummy store (some s)) := by
  unfold headerCanvas
  refine CanvasR_emitSection (CanvasR_emitSection (CanvasR_emitSection (CanvasR_refl _)
    .headerLogo _ _ ?_) .companyInfo _ _ (companyInfoOps_isEmpty _ _ _ _ _))
    .jobcardMeta _ _ (metaOps_isEmpty _ _ _ _ _ _ _)
  show (logoOps _ (some s) false).isEmpty = (logoOps _ (some s) true).isEmpty
  rw [logoOps_mode_eq _ hsl true]

/-- C5 amended: with shared branding settings that carry a company logo, a
bound record whose accessor values match the preview fixture (same status,
notes, names, absent signatures) and whose item rows render at the same
heights as the fixture rows produces exactly the same block sequence and
the same page count as preview mode.  (The logo hypothesis is forced by the
counterexample: without it, preview substitutes a placeholder logo block
that bound mode omits; the row-height hypothesis replaces exact item
equality, which is unsatisfiable because the fixture's quantity cell "10m"
is not the string form of any integer.) -/
theorem c5_mode_parity (wrapFn : String → ℚ → List String) (rowH : List String → ℚ)
    (store : TemplateStore) (s : GlobalSettings) (l : Image) (jc : Jobcard)
    (hsl : s.company_logo = some l) (hstat : jc.status = .INVOICED)
    (hcn : jc.client_name = "Acme Corp") (htn : jc.tech_notes = "Replaced parts and tested.")
    (htname : jc.tech_name = "John Doe") (hts : jc.tech_signature = none)
    (hcs : jc.client_signature = none) (hms : jc.manager_signature = none)
    (hmn : jc.manager_notes = "Approved.") (hmname : jc.manager_name = "Boss Man")
    (han : jc.admin_notes = "Invoiced #999")
    (hrows : (val_table_data (.bound jc)).map rowH = (val_table_data .dummy).map rowH) :
    (generate_pdf_buffer wrapFn rowH (.bound jc) store (some s)).map
        (fun r => (r.blocks, r.doc.length)) =
      (generate_pdf_buffer wrapFn rowH .dummy store (some s)).map
        (fun r => (r.blocks, r.doc.length)) := by
  simp only [generate_pdf_buffer]
  have hres : resolve_client_name (.bound jc) = some "Acme Corp" := by
    simp [resolve_client_name, hcn]
  rw [hres]
  simp only [resolve_client_name]
  have hR0 := headerCanvas_R jc (setup_default_template_elements store) hsl
  have hR1 := CanvasR_emitSection hR0 .clientDetails
    (clientOps (lookupEl (setup_default_template_elements store) "client_details")
      "Acme Corp" (val_tech_display (.bound jc)))
    (clientOps (lookupEl (setup_default_template_elements store) "client_details")
      "Acme Corp" (val_tech_display .dummy))
    (clientOps_isEmpty _ _ _ _ _)
  have hR2 := CanvasR_emitSection hR1 .startStopTimes
    (timesOps (lookupEl (setup_default_template_elements store) "start_stop_times")
      (val_start (.bound jc)) (val_stop (.bound jc)))
    (timesOps (lookupEl (setup_default_template_elements store) "start_stop_times")
      (val_start .dummy) (val_stop .dummy))
    (timesOps_isEmpty _ _ _ _ _)
  have htab := tableSection_congr rowH
    (lookupEl (setup_default_template_elements store) "items_table")
    (val_table_data (.bound jc)) (val_table_data .dummy) (some s) hrows hR2
  rcases ht₁ : tableSection rowH (lookupEl (setup_default_template_elements store) "items_table")
      (val_table_data (.bound jc)) (some s)
      (emitSection (emitSection (headerCanvas (.bound jc)
          (setup_default_template_elements store) (some s)) .clientDetails
        (clientOps (lookupEl (setup_default_template_elements store) "client_details")
          "Acme Corp" (val_tech_display (.bound jc)))) .startStopTimes
        (timesOps (lookupEl (setup_default_template_elements store) "start_stop_times")
          (val_start (.bound jc)) (val_stop (.bound jc))))
    with _ | tr₁ <;>
    rcases ht₂ : tableSection rowH
        (lookupEl (setup_default_template_elements store) "items_table")
        (val_table_data .dummy) (some s)
        (emitSection (emitSection (headerCanvas .dummy
            (setup_default_template_elements store) (some s)) .clientDetails
          (clientOps (lookupEl (setup_default_template_elements store) "client_details")
            "Acme Corp" (val_tech_display .dummy))) .startStopTimes
          (timesOps (lookupEl (setup_default_template_elements store) "start_stop_times")
            (val_start .dummy) (val_stop .dummy)))
      with _ | tr₂ <;>
    rw [ht₁, ht₂] at htab <;>
    simp only [optRel] at htab <;>
    dsimp only
  simp only [Option.map_some']
  obtain ⟨hrel, hy⟩ := htab
  simp only [val_status, val_tech_notes, val_sig_tech_name, val_sig_client_name,
    val_tech_sig, val_client_sig, val_manager_notes, val_manager_name, val_manager_sig,
    val_admin_notes]
  rw [hstat, htn, htname, hcn, hts, hcs, hms, hmn, hmname, han, hy]
  have hflow := flowPhase_congr wrapFn (some s) .INVOICED "Replaced parts and tested."
    "John Doe" "Acme Corp" none none "Approved." "Boss Man" none "Invoiced #999"
    hrel (tr₂.2 - 20)
  rw [hflow.1, hflow.2]

set_option maxRecDepth 20000 in
/-- C5 counterexample: with shared branding that has no logo (here: no
settings row at all), a bound record whose accessor values match the
preview fixture — status INVOICED, same notes, names and absent signatures,
items rendering at the same row heights (exact item equality is
unsatisfiable: the fixture's qty cell "10m" is not `str` of any integer) —
produces a different block sequence from preview mode: preview draws a
placeholder logo block (`elif is_dummy`) that bound mode omits. -/
theorem c5_counterexample :
    (generate_pdf_buffer wrap1 (fun _ => 20) (.bound jcFix)
        [⟨"header_logo", 40, 40, 120, 60, 0⟩] none).map (fun r => r.blocks) =
      some [BlockKind.techBlock, BlockKind.managerBlock, BlockKind.adminBlock] ∧
    (generate_pdf_buffer wrap1 (fun _ => 20) .dummy
        [⟨"header_logo", 40, 40, 120, 60, 0⟩] none).map (fun r => r.blocks) =
      some [BlockKind.headerLogo, BlockKind.techBlock, BlockKind.managerBlock,
        BlockKind.adminBlock] := by
  exact ⟨by decide, by decide⟩

set_option maxRecDepth 20000 in
/-- C5 witness: with branding that does include a logo, the fixture-matching
record and preview mode agree on block sequence and page count. -/
theorem c5_mode_parity_witness :
    (generate_pdf_buffer wrap1 (fun _ => 20) (.bound jcFix)
        [⟨"header_logo", 40, 40, 120, 60, 0⟩] (some wmBranding)).map
      (fun r => (r.blocks, r.doc.length)) =
      (generate_pdf_buffer wrap1 (fun _ => 20) .dummy
        [⟨"header_logo", 40, 40, 120, 60, 0⟩] (some wmBranding)).map
      (fun r => (r.blocks, r.doc.length)) := by
  exact c5_mode_parity wrap1 (fun _ => 20) [⟨"header_logo", 40, 40, 120, 60, 0⟩]
    wmBranding ⟨"logo.png", 100, 50, true⟩ jcFix rfl rfl rfl rfl rfl rfl rfl rfl rfl rfl rfl
    (by decide)

end Evaluation

end Jobcards
